import Mathlib

/-!
Verification of the tree-walking Lox interpreter (scanner, recursive-descent
parser, evaluator) against its natural-language specification.

The Rust source is embedded shallowly:

* `f64` is modelled by `Lox.F64`: either NaN or an ideal finite rational.
  Infinities and overflow are collapsed into `F64.nan` (documented at each
  operation); no claim below depends on non-finite arithmetic.
* Reference-counted sharing (`Rc<RefCell<…>>`) is modelled by a store:
  environment frames live in `St.frames` and are addressed by index, function
  objects live in `St.funcs`; a `Value.fn` holds the index of its callable,
  so Rust's pointer identity becomes index equality.
* Possible divergence (`while`, recursive calls) is handled by a fuel
  parameter: every interpreter function returns `none` exactly when the fuel
  runs out, and all theorems quantify over the fuel.
* A Rust `panic!` (the scanner's `.unwrap()` on `f64` parsing, the
  interpreter's `panic!("unreachable")` arms) is modelled by an explicit
  crash outcome, distinct from ordinary runtime errors.
-/

namespace Lox

/-- Idealized model of Rust `f64`: NaN or a finite value represented as an
ideal rational. IEEE infinities and overflow are not modelled; operations
whose IEEE result would be non-finite are collapsed to `nan`. No claim in
this development depends on those corners. -/
inductive F64 where
  | nan : F64
  | fin (q : ℚ) : F64
deriving DecidableEq, Repr

/-- Model of `f64` addition: NaN propagates, finite values add exactly. -/
def F64.add : F64 → F64 → F64
  | .fin a, .fin b => .fin (a + b)
  | _, _ => .nan

/-- Model of `f64` subtraction. -/
def F64.sub : F64 → F64 → F64
  | .fin a, .fin b => .fin (a - b)
  | _, _ => .nan

/-- Model of `f64` multiplication. -/
def F64.mul : F64 → F64 → F64
  | .fin a, .fin b => .fin (a * b)
  | _, _ => .nan

/-- Model of `f64` division. A zero divisor yields `nan` here, standing in
for the IEEE non-finite results (`±inf` or NaN) that the model collapses. -/
def F64.div : F64 → F64 → F64
  | .fin a, .fin b => if b = 0 then .nan else .fin (a / b)
  | _, _ => .nan

/-- Model of `f64` negation. -/
def F64.neg : F64 → F64
  | .fin a => .fin (-a)
  | .nan => .nan

/-- Model of IEEE `==` on `f64`: NaN is equal to nothing, finite values
compare exactly. -/
def F64.beq : F64 → F64 → Bool
  | .fin a, .fin b => a == b
  | _, _ => false

/-- Model of IEEE `<` on `f64`: any comparison involving NaN is false. -/
def F64.blt : F64 → F64 → Bool
  | .fin a, .fin b => a < b
  | _, _ => false

/-- Model of IEEE `<=` on `f64`. -/
def F64.ble : F64 → F64 → Bool
  | .fin a, .fin b => a ≤ b
  | _, _ => false

/-- Model of IEEE `>` on `f64`. -/
def F64.bgt : F64 → F64 → Bool
  | .fin a, .fin b => b < a
  | _, _ => false

/-- Model of IEEE `>=` on `f64`. -/
def F64.bge : F64 → F64 → Bool
  | .fin a, .fin b => b ≤ a
  | _, _ => false

/-- Token kinds. Modelled from the spec: the live token module is not under
`src/` (the scanner and parser use it through `crate::TokenType`); spec §3
fixes the closed set of kinds, and the scanner's pattern matches fix the
names used here. -/
inductive TokenType where
  | leftParen | rightParen | leftBrace | rightBrace
  | comma | dot | minus | plus | semicolon | slash | star
  | equal | equalEqual | bang | bangEqual
  | less | lessEqual | greater | greaterEqual
  | identifier | string | number
  | and_ | class_ | else_ | false_ | for_ | fun_ | if_ | nil_
  | or_ | print_ | return_ | super_ | this_ | true_ | var_ | while_
  | eof
deriving DecidableEq, Repr

/-- Literal payloads carried by tokens and literal expressions
(`Literal` in the Rust source): `Nil`, `Boolean`, `String`, `Number`. -/
inductive Literal where
  | nil : Literal
  | boolean (b : Bool) : Literal
  | str (s : String) : Literal
  | num (x : F64) : Literal
deriving DecidableEq, Repr

/-- A token. Modelled from the spec (§3): the live `Token` type is defined
in a module not under `src/`; it is the record
`{ kind, lexeme, literal?, line }` that the scanner produces and the parser
and interpreter consume. -/
structure Token where
  tokenType : TokenType
  lexeme : String
  literal : Option Literal
  line : Nat
deriving DecidableEq, Repr

/-- The expression AST (`Expression` in `expression.rs`). -/
inductive Expression where
  | lit (value : Literal)
  | grouping (child : Expression)
  | unary (operator : Token) (right : Expression)
  | binary (left : Expression) (operator : Token) (right : Expression)
  | var (name : Token)
  | assign (name : Token) (right : Expression)
  | logical (left : Expression) (operator : Token) (right : Expression)
  | call (callee : Expression) (parenthesis : Token) (arguments : List Expression)
deriving Repr

/-- The statement AST (`Statement` in `statement.rs`). There is no dedicated
`for` node: `for` loops are desugared by the parser. -/
inductive Statement where
  | expr (e : Expression)
  | func (name : Token) (parameters : List Token) (body : List Statement)
  | ifS (condition : Expression) (thenBranch : Statement) (elseBranch : Option Statement)
  | print (e : Expression)
  | var (name : Token) (initializer : Option Expression)
  | ret (keyword : Token) (value : Option Expression)
  | whileS (condition : Expression) (body : Statement)
  | block (statements : List Statement)
deriving Repr

/-- Runtime values (`Value` in `value.rs`). `Value::Function` holds an
`Rc<RefCell<dyn Callable>>`; here `fn id` holds the index of the callable in
the interpreter's function store, so Rust pointer identity is index
equality. -/
inductive Value where
  | nil : Value
  | boolean (b : Bool) : Value
  | str (s : String) : Value
  | num (x : F64) : Value
  | fn (id : Nat) : Value
deriving DecidableEq, Repr

/-- `impl From<Literal> for Value` in `value.rs`. -/
def literalToValue : Literal → Value
  | .nil => .nil
  | .boolean b => .boolean b
  | .str s => .str s
  | .num x => .num x

/-- `impl PartialEq for Value` in `value.rs`: nil equals nil, booleans and
strings by content, numbers by IEEE `==`, functions by reference identity
(`std::ptr::addr_eq`), anything else unequal. -/
def valueEq : Value → Value → Bool
  | .nil, .nil => true
  | .boolean a, .boolean b => a == b
  | .str a, .str b => a == b
  | .num a, .num b => F64.beq a b
  | .fn a, .fn b => a == b
  | _, _ => false

/-- Discriminant of a `Value`, used to state cross-kind inequality. -/
def Value.kindIdx : Value → Nat
  | .nil => 0
  | .boolean _ => 1
  | .str _ => 2
  | .num _ => 3
  | .fn _ => 4

/-- Runtime errors (`InterpreterError` in `interpreter.rs`): an optional
offending token and a message. -/
structure InterpreterError where
  token : Option Token
  message : String
deriving DecidableEq, Repr

/-- `Interpreter::is_truthy`: `nil` and `false` are falsy, all else truthy. -/
def isTruthy : Value → Bool
  | .nil => false
  | .boolean b => b
  | _ => true

/-- `Interpreter::check_number_operand`: require a `Number` operand, else the
runtime error `Operand must be a number.` carrying the operator token. -/
def checkNumberOperand (operator : Token) (operand : Value) :
    Except InterpreterError F64 :=
  match operand with
  | .num x => .ok x
  | _ => .error ⟨some operator, "Operand must be a number."⟩

/-- `Interpreter::check_number_operands`: require two `Number` operands, else
the runtime error `Operands must be a number.` carrying the operator token
(note the source's singular "a number", not "numbers"). -/
def checkNumberOperands (operator : Token) (left right : Value) :
    Except InterpreterError (F64 × F64) :=
  match left, right with
  | .num x, .num y => .ok (x, y)
  | _, _ => .error ⟨some operator, "Operands must be a number."⟩

/-- One environment frame (`Inner` in `environment.rs`): a name→value map
(the `HashMap`, modelled as an association list whose insert overwrites) and
an optional enclosing frame. Frames live in the interpreter's store and the
enclosing pointer is a store index, modelling the `Rc<RefCell<Inner>>`
sharing. -/
structure Frame where
  enclosing : Option Nat
  values : List (String × Value)
deriving Repr

/-- Lookup in a frame's map (`HashMap::get`). -/
def assocLookup : List (String × Value) → String → Option Value
  | [], _ => none
  | (k, v) :: rest, name => if k = name then some v else assocLookup rest name

/-- Overwrite an entry when its key is `k` (the in-place update of
`HashMap::insert` on a present key). -/
def replaceEntry (k : String) (v : Value) (p : String × Value) : String × Value :=
  if p.1 = k then (k, v) else p

/-- Insert into a frame's map (`HashMap::insert`): overwrite the binding if
the key is present, otherwise add a new one. -/
def mapInsert (vs : List (String × Value)) (k : String) (v : Value) :
    List (String × Value) :=
  if (assocLookup vs k).isSome then
    vs.map (replaceEntry k v)
  else
    (k, v) :: vs

/-- `Inner::get`: walk the frame chain toward the root; return the first
binding found, else the runtime error `Undefined variable '<lexeme>'.`
carrying the name token. The fuel bounds the walk (the store's chain is
acyclic in every reachable state); `none` means the fuel ran out. -/
def getVarChain : Nat → List Frame → Nat → Token → Option (Except InterpreterError Value)
  | 0, _, _, _ => none
  | fuel + 1, frames, fid, name =>
    match frames[fid]? with
    | none => none
    | some fr =>
      match assocLookup fr.values name.lexeme with
      | some v => some (.ok v)
      | none =>
        match fr.enclosing with
        | some parent => getVarChain fuel frames parent name
        | none => some (.error ⟨some name, "Undefined variable '" ++ name.lexeme ++ "'."⟩)

/-- `Inner::assign`: walk the frame chain toward the root; mutate the first
frame that contains the name, else the runtime error
`Undefined variable '<lexeme>'.`. Returns the updated store on success. -/
def assignVarChain : Nat → List Frame → Nat → Token → Value →
    Option (Except InterpreterError (List Frame))
  | 0, _, _, _, _ => none
  | fuel + 1, frames, fid, name, v =>
    match frames[fid]? with
    | none => none
    | some fr =>
      if (assocLookup fr.values name.lexeme).isSome then
        some (.ok (frames.set fid { fr with values := mapInsert fr.values name.lexeme v }))
      else
        match fr.enclosing with
        | some parent => assignVarChain fuel frames parent name v
        | none => some (.error ⟨some name, "Undefined variable '" ++ name.lexeme ++ "'."⟩)

/-- The index of the first frame on the chain from `fid` toward the root
that binds `name` — the frame `Inner::get` reads and `Inner::assign`
mutates. `none` when no frame on the chain binds it (or the fuel ran out). -/
def findFrame : Nat → List Frame → Nat → String → Option Nat
  | 0, _, _, _ => none
  | fuel + 1, frames, fid, name =>
    match frames[fid]? with
    | none => none
    | some fr =>
      if (assocLookup fr.values name).isSome then some fid
      else
        match fr.enclosing with
        | some parent => findFrame fuel frames parent name
        | none => none

/-- A callable (`dyn Callable` in `function.rs`): a user `LoxFunction`
(name, parameters, body, closure frame) or the native `clock`. -/
inductive Callable where
  | lox (name : Token) (parameters : List Token) (body : List Statement) (closure : Nat)
  | clock
deriving Repr

/-- `Callable::arity`: parameter count for a user function, 0 for `clock`. -/
def Callable.arity : Callable → Nat
  | .lox _ ps _ _ => ps.length
  | .clock => 0

/-- `Callable::as_str`: `<fn NAME>` for a user function,
`<native fn clock>` for the native clock. -/
def Callable.asStr : Callable → String
  | .lox name _ _ _ => "<fn " ++ name.lexeme ++ ">"
  | .clock => "<native fn clock>"

/-- The interpreter state: the frame store, the function store, the globals
frame index, the current frame index (`Interpreter::environment`), the lines
printed so far, and the value the native `clock` returns (modelling
`SystemTime::now`; its pre-epoch error branch is not modelled). -/
structure St where
  frames : List Frame
  funcs : List Callable
  globals : Nat
  env : Nat
  output : List String
  now : F64
deriving Repr

/-- `Environment::define` targeted at a given frame: unconditional insert
into that frame's map. Out-of-store indices leave the state unchanged
(unreachable from the initial state). -/
def St.defineIn (σ : St) (fid : Nat) (name : String) (v : Value) : St :=
  match σ.frames[fid]? with
  | some fr => { σ with frames := σ.frames.set fid { fr with values := mapInsert fr.values name v } }
  | none => σ

/-- `self.environment.define(name, value)`: define in the current frame. -/
def St.define (σ : St) (name : String) (v : Value) : St :=
  σ.defineIn σ.env name v

/-- `Environment::enclose`: allocate a fresh empty frame whose enclosing
pointer is `parent`; returns its index and the grown store. -/
def St.enclose (σ : St) (parent : Nat) : Nat × St :=
  (σ.frames.length, { σ with frames := σ.frames ++ [⟨some parent, []⟩] })

/-- Bind parameters to argument values in frame `fid`, in order, stopping at
the shorter list (the `zip` in `LoxFunction::call`). -/
def defineParams (σ : St) (fid : Nat) : List Token → List Value → St
  | p :: ps, v :: vs => defineParams (σ.defineIn fid p.lexeme v) fid ps vs
  | _, _ => σ

/-- Render an `f64` the way Rust's default `Display` does (minimal
precision): an integral value prints as a bare integer with no `.0`; a
non-integral value prints as its (terminating) decimal expansion. Every
actual `f64` is a binary fraction, so its exact decimal terminates; for the
model's ideal rationals with other denominators the fraction is printed
`num/den` (out of model, never produced by the claims). NaN prints `NaN`. -/
def rustF64Display : F64 → String
  | .nan => "NaN"
  | .fin q =>
    if q.den = 1 then toString q.num
    else
      match (List.range 400).find? (fun k => (q * (10 : ℚ) ^ k).den = 1) with
      | some k =>
        let n := (q * (10 : ℚ) ^ k).num
        let sign := if n < 0 then "-" else ""
        let digits := toString n.natAbs
        let padded :=
          if digits.length ≤ k then String.mk (List.replicate (k + 1 - digits.length) '0') ++ digits
          else digits
        let cut := padded.length - k
        sign ++ (padded.take cut) ++ "." ++ (padded.drop cut)
      | none => toString q.num ++ "/" ++ toString q.den

/-- `impl fmt::Display for Value` in `value.rs`: `nil`, `true`/`false`,
string contents, numbers by Rust's default `f64` display, functions by
`Callable::as_str` looked up in the function store (a dangling index, which
no reachable state produces, prints `<fn?>`). -/
def valueDisplay (funcs : List Callable) : Value → String
  | .nil => "nil"
  | .boolean b => if b then "true" else "false"
  | .str s => s
  | .num x => rustF64Display x
  | .fn id =>
    match funcs[id]? with
    | some c => c.asStr
    | none => "<fn?>"

/-- The `Statement::Print` arm of `Interpreter::execute`: a `Number` prints
via `println!("{value}")` on the `f64` itself, every other value via the
`Value` display. -/
def printStmtRender (funcs : List Callable) : Value → String
  | .num x => rustF64Display x
  | v => valueDisplay funcs v

/-- The early exits of Rust's `?` operator on interpreter results: `none`
(fuel exhausted or crashed) and runtime errors propagate, a success value
and its post-state flow into the continuation. -/
def resBind {α β : Type} (x : Option (Except InterpreterError α × St))
    (k : α → St → Option (Except InterpreterError β × St)) :
    Option (Except InterpreterError β × St) :=
  match x with
  | none => none
  | some (.error err, σ') => some (.error err, σ')
  | some (.ok v, σ') => k v σ'

/-- The `Expression::Unary` operator dispatch of `Interpreter::evaluate`,
applied once the operand has been evaluated: `!` negates truthiness, `-`
requires a number; any other operator token is the `panic!("unreachable")`
arm, modelled as `none`. -/
def evalUnaryOp (operator : Token) (rv : Value) (σ' : St) :
    Option (Except InterpreterError Value × St) :=
  match operator.tokenType with
  | .bang => some (.ok (.boolean (!isTruthy rv)), σ')
  | .minus =>
    match checkNumberOperand operator rv with
    | .ok x => some (.ok (.num x.neg), σ')
    | .error err => some (.error err, σ')
  | _ => none

/-- The `Expression::Binary` operator dispatch of `Interpreter::evaluate`,
applied once both operands have been evaluated (the source's `match
operator.token_type` on the two child values); any other operator token is
the `panic!("unreachable")` arm, modelled as `none`. -/
def evalBinaryOp (operator : Token) (lv rv : Value) (σ₂ : St) :
    Option (Except InterpreterError Value × St) :=
  match operator.tokenType with
  | .slash =>
    match checkNumberOperands operator lv rv with
    | .ok (x, y) => some (.ok (.num (x.div y)), σ₂)
    | .error err => some (.error err, σ₂)
  | .star =>
    match checkNumberOperands operator lv rv with
    | .ok (x, y) => some (.ok (.num (x.mul y)), σ₂)
    | .error err => some (.error err, σ₂)
  | .minus =>
    match checkNumberOperands operator lv rv with
    | .ok (x, y) => some (.ok (.num (x.sub y)), σ₂)
    | .error err => some (.error err, σ₂)
  | .plus =>
    match lv, rv with
    | .num a, .num b => some (.ok (.num (a.add b)), σ₂)
    | .str a, .str b => some (.ok (.str (a ++ b)), σ₂)
    | _, _ =>
      some (.error ⟨some operator, "Operands must be two numbers or two strings."⟩, σ₂)
  | .greater =>
    match checkNumberOperands operator lv rv with
    | .ok (x, y) => some (.ok (.boolean (x.bgt y)), σ₂)
    | .error err => some (.error err, σ₂)
  | .greaterEqual =>
    match checkNumberOperands operator lv rv with
    | .ok (x, y) => some (.ok (.boolean (x.bge y)), σ₂)
    | .error err => some (.error err, σ₂)
  | .less =>
    match checkNumberOperands operator lv rv with
    | .ok (x, y) => some (.ok (.boolean (x.blt y)), σ₂)
    | .error err => some (.error err, σ₂)
  | .lessEqual =>
    match checkNumberOperands operator lv rv with
    | .ok (x, y) => some (.ok (.boolean (x.ble y)), σ₂)
    | .error err => some (.error err, σ₂)
  | .bangEqual => some (.ok (.boolean (!valueEq lv rv)), σ₂)
  | .equalEqual => some (.ok (.boolean (valueEq lv rv)), σ₂)
  | _ => none

/-- The `Expression::Assign` tail of `Interpreter::evaluate`, applied once
the right-hand side has been evaluated: `self.environment.assign(...)?`,
then the assigned value is returned. -/
def applyAssign (name : Token) (v : Value) (σ₁ : St) :
    Option (Except InterpreterError Value × St) :=
  match assignVarChain σ₁.frames.length σ₁.frames σ₁.env name v with
  | none => none
  | some (.error err) => some (.error err, σ₁)
  | some (.ok frames') => some (.ok v, { σ₁ with frames := frames' })

mutual

/-- `Interpreter::evaluate`. The result pairs an `Except` (runtime error or
value) with the post-state; the outer `none` means the fuel ran out, and is
also used for the `panic!("unreachable")` arms (operator tokens the parser
never produces) and for dangling store indices (unreachable states). -/
def evalE (fuel : Nat) (e : Expression) (σ : St) :
    Option (Except InterpreterError Value × St) :=
  match fuel with
  | 0 => none
  | fuel + 1 =>
    match e with
    | .lit l => some (.ok (literalToValue l), σ)
    | .grouping child => evalE fuel child σ
    | .unary operator right =>
      resBind (evalE fuel right σ) fun rv σ' => evalUnaryOp operator rv σ'
    | .binary left operator right =>
      resBind (evalE fuel left σ) fun lv σ₁ =>
        resBind (evalE fuel right σ₁) fun rv σ₂ => evalBinaryOp operator lv rv σ₂
    | .var name =>
      match getVarChain σ.frames.length σ.frames σ.env name with
      | none => none
      | some (.ok v) => some (.ok v, σ)
      | some (.error err) => some (.error err, σ)
    | .assign name right =>
      resBind (evalE fuel right σ) fun v σ₁ => applyAssign name v σ₁
    | .logical left operator right =>
      resBind (evalE fuel left σ) fun lv σ₁ =>
        match operator.tokenType with
        | .or_ => if isTruthy lv then some (.ok lv, σ₁) else evalE fuel right σ₁
        | .and_ => if !isTruthy lv then some (.ok lv, σ₁) else evalE fuel right σ₁
        | _ => none
    | .call callee parenthesis arguments =>
      resBind (evalE fuel callee σ) fun cv σ₁ =>
        resBind (evalArgs fuel arguments σ₁) fun argVals σ₂ =>
          match cv with
          | .fn fid =>
            match σ₂.funcs[fid]? with
            | none => none
            | some c =>
              if argVals.length ≠ c.arity then
                some (.error ⟨some parenthesis,
                  "Expected " ++ toString c.arity ++ " arguments but got " ++
                    toString argVals.length ++ "."⟩, σ₂)
              else
                resBind (callCallable fuel c argVals parenthesis σ₂) fun returned σ₃ =>
                  some (.ok (returned.getD .nil), σ₃)
          | _ =>
            some (.error ⟨some parenthesis, "Can only call functions and classes."⟩, σ₂)
termination_by structural fuel

/-- The argument loop of the `Expression::Call` arm: evaluate the argument
expressions left to right, propagating the first error. -/
def evalArgs (fuel : Nat) (es : List Expression) (σ : St) :
    Option (Except InterpreterError (List Value) × St) :=
  match fuel with
  | 0 => none
  | fuel + 1 =>
    match es with
    | [] => some (.ok [], σ)
    | e :: rest =>
      resBind (evalE fuel e σ) fun v σ₁ =>
        resBind (evalArgs fuel rest σ₁) fun vs σ₂ =>
          some (.ok (v :: vs), σ₂)
termination_by structural fuel

/-- `Callable::call`: the native `clock` returns the state's `now`; a user
function encloses a fresh frame on its closure frame, binds the parameters
there, and runs its body through `execBlock` (`LoxFunction::call`). -/
def callCallable (fuel : Nat) (c : Callable) (args : List Value) (_tok : Token) (σ : St) :
    Option (Except InterpreterError (Option Value) × St) :=
  match fuel with
  | 0 => none
  | fuel + 1 =>
    match c with
    | .clock => some (.ok (some (.num σ.now)), σ)
    | .lox _ params body closure =>
      let fr := σ.enclose closure
      let σ₂ := defineParams fr.2 fr.1 params args
      execBlock fuel body fr.1 σ₂
termination_by structural fuel

/-- `Interpreter::execute`. The `Option Value` in the success case is the
early-return carrier: `some v` means a `return` is bubbling up. -/
def execS (fuel : Nat) (s : Statement) (σ : St) :
    Option (Except InterpreterError (Option Value) × St) :=
  match fuel with
  | 0 => none
  | fuel + 1 =>
    match s with
    | .expr e =>
      resBind (evalE fuel e σ) fun _ σ' => some (.ok none, σ')
    | .func name params body =>
      let fnId := σ.funcs.length
      let σ₁ := { σ with funcs := σ.funcs ++ [Callable.lox name params body σ.env] }
      some (.ok none, σ₁.define name.lexeme (.fn fnId))
    | .ifS condition thenBranch elseBranch =>
      resBind (evalE fuel condition σ) fun cv σ' =>
        if isTruthy cv then execS fuel thenBranch σ'
        else
          match elseBranch with
          | some st => execS fuel st σ'
          | none => some (.ok none, σ')
    | .print e =>
      resBind (evalE fuel e σ) fun v σ' =>
        some (.ok none, { σ' with output := σ'.output ++ [printStmtRender σ'.funcs v] })
    | .var name initializer =>
      match initializer with
      | some e =>
        resBind (evalE fuel e σ) fun v σ' => some (.ok none, σ'.define name.lexeme v)
      | none => some (.ok none, σ.define name.lexeme .nil)
    | .ret _ value =>
      match value with
      | some e =>
        resBind (evalE fuel e σ) fun v σ' => some (.ok (some v), σ')
      | none => some (.ok (some .nil), σ)
    | .whileS condition body =>
      resBind (evalE fuel condition σ) fun cv σ₁ =>
        if !isTruthy cv then some (.ok none, σ₁)
        else
          resBind (execS fuel body σ₁) fun carrier σ₂ =>
            match carrier with
            | some v => some (.ok (some v), σ₂)
            | none => execS fuel (.whileS condition body) σ₂
    | .block statements =>
      let fr := σ.enclose σ.env
      execBlock fuel statements fr.1 fr.2
termination_by structural fuel

/-- `Interpreter::execute_block`: remember the previous current frame,
install the given one, and run the statement list through `execSeq`. -/
def execBlock (fuel : Nat) (statements : List Statement) (fid : Nat) (σ : St) :
    Option (Except InterpreterError (Option Value) × St) :=
  match fuel with
  | 0 => none
  | fuel + 1 => execSeq fuel σ.env statements { σ with env := fid }
termination_by structural fuel

/-- The loop of `Interpreter::execute_block`: run the statements in order;
on a runtime error, on an early-return carrier, and at normal completion the
previous frame `prev` is restored (the source's three
`self.environment = previous` sites). -/
def execSeq (fuel : Nat) (prev : Nat) (statements : List Statement) (σ : St) :
    Option (Except InterpreterError (Option Value) × St) :=
  match fuel with
  | 0 => none
  | fuel + 1 =>
    match statements with
    | [] => some (.ok none, { σ with env := prev })
    | s :: rest =>
      match execS fuel s σ with
      | none => none
      | some (.error err, σ') => some (.error err, { σ' with env := prev })
      | some (.ok (some v), σ') => some (.ok (some v), { σ' with env := prev })
      | some (.ok none, σ') => execSeq fuel prev rest σ'
termination_by structural fuel

end

/-- `Interpreter::interpret`: execute the top-level statements in order; the
`?` propagates runtime errors, and an early-return carrier from a top-level
statement is discarded and execution continues. -/
def interpretL (fuel : Nat) : List Statement → St → Option (Except InterpreterError Unit × St)
  | [], σ => some (.ok (), σ)
  | s :: rest, σ =>
    resBind (execS fuel s σ) fun _ σ' => interpretL fuel rest σ'

/-- `Interpreter::new`: a single globals frame holding the native `clock`;
`globals` and `environment` are that same frame. -/
def initState : St :=
  { frames := [⟨none, [("clock", Value.fn 0)]⟩]
    funcs := [Callable.clock]
    globals := 0
    env := 0
    output := []
    now := F64.fin 0 }

theorem evalE_zero (e : Expression) (σ : St) : evalE 0 e σ = none := rfl

theorem evalE_lit (fuel : Nat) (l : Literal) (σ : St) :
    evalE (fuel + 1) (.lit l) σ = some (.ok (literalToValue l), σ) := rfl

theorem evalE_grouping (fuel : Nat) (c : Expression) (σ : St) :
    evalE (fuel + 1) (.grouping c) σ = evalE fuel c σ := rfl

theorem evalE_unary (fuel : Nat) (operator : Token) (right : Expression) (σ : St) :
    evalE (fuel + 1) (.unary operator right) σ =
      resBind (evalE fuel right σ) (fun rv σ' => evalUnaryOp operator rv σ') := rfl

theorem evalE_binary (fuel : Nat) (left : Expression) (operator : Token)
    (right : Expression) (σ : St) :
    evalE (fuel + 1) (.binary left operator right) σ =
      resBind (evalE fuel left σ) (fun lv σ₁ =>
        resBind (evalE fuel right σ₁) (fun rv σ₂ => evalBinaryOp operator lv rv σ₂)) := rfl

theorem evalE_var (fuel : Nat) (name : Token) (σ : St) :
    evalE (fuel + 1) (.var name) σ =
      match getVarChain σ.frames.length σ.frames σ.env name with
      | none => none
      | some (.ok v) => some (.ok v, σ)
      | some (.error err) => some (.error err, σ) := rfl

theorem evalE_assign (fuel : Nat) (name : Token) (right : Expression) (σ : St) :
    evalE (fuel + 1) (.assign name right) σ =
      resBind (evalE fuel right σ) (fun v σ₁ => applyAssign name v σ₁) := rfl

theorem evalE_logical (fuel : Nat) (left : Expression) (operator : Token)
    (right : Expression) (σ : St) :
    evalE (fuel + 1) (.logical left operator right) σ =
      resBind (evalE fuel left σ) (fun lv σ₁ =>
        match operator.tokenType with
        | .or_ => if isTruthy lv then some (.ok lv, σ₁) else evalE fuel right σ₁
        | .and_ => if !isTruthy lv then some (.ok lv, σ₁) else evalE fuel right σ₁
        | _ => none) := rfl

theorem evalE_call (fuel : Nat) (callee : Expression) (parenthesis : Token)
    (arguments : List Expression) (σ : St) :
    evalE (fuel + 1) (.call callee parenthesis arguments) σ =
      resBind (evalE fuel callee σ) (fun cv σ₁ =>
        resBind (evalArgs fuel arguments σ₁) (fun argVals σ₂ =>
          match cv with
          | .fn fid =>
            match σ₂.funcs[fid]? with
            | none => none
            | some c =>
              if argVals.length ≠ c.arity then
                some (.error ⟨some parenthesis,
                  "Expected " ++ toString c.arity ++ " arguments but got " ++
                    toString argVals.length ++ "."⟩, σ₂)
              else
                resBind (callCallable fuel c argVals parenthesis σ₂) fun returned σ₃ =>
                  some (.ok (returned.getD .nil), σ₃)
          | _ =>
            some (.error ⟨some parenthesis, "Can only call functions and classes."⟩, σ₂))) := rfl

theorem evalArgs_zero (es : List Expression) (σ : St) : evalArgs 0 es σ = none := rfl

theorem evalArgs_nil (fuel : Nat) (σ : St) :
    evalArgs (fuel + 1) [] σ = some (.ok [], σ) := rfl

theorem evalArgs_cons (fuel : Nat) (e : Expression) (rest : List Expression) (σ : St) :
    evalArgs (fuel + 1) (e :: rest) σ =
      resBind (evalE fuel e σ) (fun v σ₁ =>
        resBind (evalArgs fuel rest σ₁) (fun vs σ₂ => some (.ok (v :: vs), σ₂))) := rfl

theorem callCallable_zero (c : Callable) (args : List Value) (t : Token) (σ : St) :
    callCallable 0 c args t σ = none := rfl

theorem callCallable_clock (fuel : Nat) (args : List Value) (t : Token) (σ : St) :
    callCallable (fuel + 1) .clock args t σ = some (.ok (some (.num σ.now)), σ) := rfl

theorem callCallable_lox (fuel : Nat) (name : Token) (params : List Token)
    (body : List Statement) (closure : Nat) (args : List Value) (t : Token) (σ : St) :
    callCallable (fuel + 1) (.lox name params body closure) args t σ =
      execBlock fuel body (σ.enclose closure).1
        (defineParams (σ.enclose closure).2 (σ.enclose closure).1 params args) := rfl

theorem execS_zero (s : Statement) (σ : St) : execS 0 s σ = none := rfl

theorem execS_expr (fuel : Nat) (e : Expression) (σ : St) :
    execS (fuel + 1) (.expr e) σ =
      resBind (evalE fuel e σ) (fun _ σ' => some (.ok none, σ')) := rfl

theorem execS_func (fuel : Nat) (name : Token) (params : List Token)
    (body : List Statement) (σ : St) :
    execS (fuel + 1) (.func name params body) σ =
      some (.ok none,
        ({ σ with funcs := σ.funcs ++ [Callable.lox name params body σ.env] }).define
          name.lexeme (.fn σ.funcs.length)) := rfl

theorem execS_if (fuel : Nat) (condition : Expression) (thenBranch : Statement)
    (elseBranch : Option Statement) (σ : St) :
    execS (fuel + 1) (.ifS condition thenBranch elseBranch) σ =
      resBind (evalE fuel condition σ) (fun cv σ' =>
        if isTruthy cv then execS fuel thenBranch σ'
        else
          match elseBranch with
          | some st => execS fuel st σ'
          | none => some (.ok none, σ')) := rfl

theorem execS_print (fuel : Nat) (e : Expression) (σ : St) :
    execS (fuel + 1) (.print e) σ =
      resBind (evalE fuel e σ) (fun v σ' =>
        some (.ok none, { σ' with output := σ'.output ++ [printStmtRender σ'.funcs v] })) := rfl

theorem execS_varDecl_some (fuel : Nat) (name : Token) (e : Expression) (σ : St) :
    execS (fuel + 1) (.var name (some e)) σ =
      resBind (evalE fuel e σ) (fun v σ' => some (.ok none, σ'.define name.lexeme v)) := rfl

theorem execS_varDecl_none (fuel : Nat) (name : Token) (σ : St) :
    execS (fuel + 1) (.var name none) σ = some (.ok none, σ.define name.lexeme .nil) := rfl

theorem execS_ret_some (fuel : Nat) (keyword : Token) (e : Expression) (σ : St) :
    execS (fuel + 1) (.ret keyword (some e)) σ =
      resBind (evalE fuel e σ) (fun v σ' => some (.ok (some v), σ')) := rfl

theorem execS_ret_none (fuel : Nat) (keyword : Token) (σ : St) :
    execS (fuel + 1) (.ret keyword none) σ = some (.ok (some .nil), σ) := rfl

theorem execS_while (fuel : Nat) (condition : Expression) (body : Statement) (σ : St) :
    execS (fuel + 1) (.whileS condition body) σ =
      resBind (evalE fuel condition σ) (fun cv σ₁ =>
        if !isTruthy cv then some (.ok none, σ₁)
        else
          resBind (execS fuel body σ₁) (fun carrier σ₂ =>
            match carrier with
            | some v => some (.ok (some v), σ₂)
            | none => execS fuel (.whileS condition body) σ₂)) := rfl

theorem execS_block (fuel : Nat) (statements : List Statement) (σ : St) :
    execS (fuel + 1) (.block statements) σ =
      execBlock fuel statements (σ.enclose σ.env).1 (σ.enclose σ.env).2 := rfl

theorem execBlock_zero (ss : List Statement) (fid : Nat) (σ : St) :
    execBlock 0 ss fid σ = none := rfl

theorem execBlock_succ (fuel : Nat) (ss : List Statement) (fid : Nat) (σ : St) :
    execBlock (fuel + 1) ss fid σ = execSeq fuel σ.env ss { σ with env := fid } := rfl

theorem execSeq_zero (prev : Nat) (ss : List Statement) (σ : St) :
    execSeq 0 prev ss σ = none := rfl

theorem execSeq_nil (fuel : Nat) (prev : Nat) (σ : St) :
    execSeq (fuel + 1) prev [] σ = some (.ok none, { σ with env := prev }) := rfl

theorem execSeq_cons (fuel : Nat) (prev : Nat) (s : Statement) (rest : List Statement) (σ : St) :
    execSeq (fuel + 1) prev (s :: rest) σ =
      match execS fuel s σ with
      | none => none
      | some (.error err, σ') => some (.error err, { σ' with env := prev })
      | some (.ok (some v), σ') => some (.ok (some v), { σ' with env := prev })
      | some (.ok none, σ') => execSeq fuel prev rest σ' := rfl

theorem interpretL_nil (fuel : Nat) (σ : St) : interpretL fuel [] σ = some (.ok (), σ) := rfl

theorem interpretL_cons (fuel : Nat) (s : Statement) (rest : List Statement) (σ : St) :
    interpretL fuel (s :: rest) σ =
      resBind (execS fuel s σ) (fun _ σ' => interpretL fuel rest σ') := rfl

/-- The current-frame index and the globals index of the second state agree
with those of the first: the relation every interpreter step preserves. -/
def Pres (σ σ' : St) : Prop := σ'.env = σ.env ∧ σ'.globals = σ.globals

theorem Pres.refl (σ : St) : Pres σ σ := ⟨rfl, rfl⟩

theorem Pres.trans {a b c : St} (h₁ : Pres a b) (h₂ : Pres b c) : Pres a c :=
  ⟨h₂.1.trans h₁.1, h₂.2.trans h₁.2⟩

@[simp] theorem defineIn_env (σ : St) (fid : Nat) (n : String) (v : Value) :
    (σ.defineIn fid n v).env = σ.env := by
  unfold St.defineIn; split <;> rfl

@[simp] theorem defineIn_globals (σ : St) (fid : Nat) (n : String) (v : Value) :
    (σ.defineIn fid n v).globals = σ.globals := by
  unfold St.defineIn; split <;> rfl

@[simp] theorem define_env (σ : St) (n : String) (v : Value) :
    (σ.define n v).env = σ.env := defineIn_env ..

@[simp] theorem define_globals (σ : St) (n : String) (v : Value) :
    (σ.define n v).globals = σ.globals := defineIn_globals ..

@[simp] theorem enclose_snd_env (σ : St) (p : Nat) : (σ.enclose p).2.env = σ.env := rfl

@[simp] theorem enclose_snd_globals (σ : St) (p : Nat) :
    (σ.enclose p).2.globals = σ.globals := rfl

@[simp] theorem defineParams_env (σ : St) (fid : Nat) (ps : List Token) (vs : List Value) :
    (defineParams σ fid ps vs).env = σ.env := by
  induction ps generalizing σ vs with
  | nil => cases vs <;> rfl
  | cons p ps ih =>
    cases vs with
    | nil => rfl
    | cons v vs => rw [defineParams]; simp [ih]

@[simp] theorem defineParams_globals (σ : St) (fid : Nat) (ps : List Token) (vs : List Value) :
    (defineParams σ fid ps vs).globals = σ.globals := by
  induction ps generalizing σ vs with
  | nil => cases vs <;> rfl
  | cons p ps ih =>
    cases vs with
    | nil => rfl
    | cons v vs => rw [defineParams]; simp [ih]

/-- Composition principle for `resBind`: if the bound computation preserves
the frame pointers from `σ0` and the continuation preserves them from
whatever state it starts in, the whole bind preserves them from `σ0`. -/
theorem resBind_pres {α β : Type} {x : Option (Except InterpreterError α × St)}
    {k : α → St → Option (Except InterpreterError β × St)}
    {σ0 : St} {out : Except InterpreterError β × St}
    (hx : ∀ o, x = some o → Pres σ0 o.2)
    (hk : ∀ v σ' o, k v σ' = some o → Pres σ' o.2)
    (h : resBind x k = some out) : Pres σ0 out.2 := by
  match hxe : x with
  | none =>
    exact absurd h (by simp [resBind])
  | some (Except.error err, σ') =>
    have h' : some ((Except.error err : Except InterpreterError β), σ') = some out := h
    cases h'
    exact hx _ rfl
  | some (Except.ok v, σ') =>
    have hk' : k v σ' = some out := h
    exact (hx _ rfl).trans (hk _ _ _ hk')

theorem evalUnaryOp_pres (operator : Token) (rv : Value) (σ' : St)
    (o : Except InterpreterError Value × St) (h : evalUnaryOp operator rv σ' = some o) :
    Pres σ' o.2 := by
  unfold evalUnaryOp at h
  split at h
  · cases h; exact ⟨rfl, rfl⟩
  · split at h <;> cases h <;> exact ⟨rfl, rfl⟩
  · simp at h

theorem evalBinaryOp_pres (operator : Token) (lv rv : Value) (σ₂ : St)
    (o : Except InterpreterError Value × St) (h : evalBinaryOp operator lv rv σ₂ = some o) :
    Pres σ₂ o.2 := by
  unfold evalBinaryOp at h
  split at h <;>
    first
    | (split at h <;> cases h <;> exact ⟨rfl, rfl⟩)
    | (cases h; exact ⟨rfl, rfl⟩)
    | simp at h

theorem applyAssign_pres (name : Token) (v : Value) (σ₁ : St)
    (o : Except InterpreterError Value × St) (h : applyAssign name v σ₁ = some o) :
    Pres σ₁ o.2 := by
  unfold applyAssign at h
  rcases hg : assignVarChain σ₁.frames.length σ₁.frames σ₁.env name v with _ | err | frames'
  · rw [hg] at h; exact Option.noConfusion h
  · rw [hg] at h
    have h' : some ((Except.error err : Except InterpreterError Value), σ₁) = some o := h
    cases h'; exact ⟨rfl, rfl⟩
  · rw [hg] at h
    have h' : some ((Except.ok v : Except InterpreterError Value),
        { σ₁ with frames := frames' }) = some o := h
    cases h'; exact ⟨rfl, rfl⟩

theorem resBind_ok {α β : Type} (v : α) (σ' : St)
    (k : α → St → Option (Except InterpreterError β × St)) :
    resBind (some (.ok v, σ')) k = k v σ' := rfl

theorem resBind_err {α β : Type} (e : InterpreterError) (σ' : St)
    (k : α → St → Option (Except InterpreterError β × St)) :
    resBind (some (.error e, σ')) k = some (.error e, σ') := rfl

/-- The frame-pointer preservation invariant, proved for all six interpreter
entry points simultaneously by induction on the fuel: whenever a run
completes (with a value, a carrier, or a runtime error), the final state's
current frame and globals indices equal the initial ones — except `execSeq`,
whose contract is to restore the `prev` frame handed to it by
`execute_block`. -/
theorem interp_preserves : ∀ fuel : Nat,
    (∀ e σ out, evalE fuel e σ = some out → Pres σ out.2) ∧
    (∀ es σ out, evalArgs fuel es σ = some out → Pres σ out.2) ∧
    (∀ c args t σ out, callCallable fuel c args t σ = some out → Pres σ out.2) ∧
    (∀ s σ out, execS fuel s σ = some out → Pres σ out.2) ∧
    (∀ ss fid σ out, execBlock fuel ss fid σ = some out → Pres σ out.2) ∧
    (∀ prev ss σ out, execSeq fuel prev ss σ = some out →
      out.2.env = prev ∧ out.2.globals = σ.globals) := by
  intro fuel
  induction fuel with
  | zero =>
    refine ⟨?_, ?_, ?_, ?_, ?_, ?_⟩ <;> intros <;> rename_i h <;>
      simp [evalE_zero, evalArgs_zero, callCallable_zero, execS_zero, execBlock_zero,
        execSeq_zero] at h
  | succ n ih =>
    obtain ⟨ihE, ihA, ihC, ihS, ihB, ihQ⟩ := ih
    refine ⟨?_, ?_, ?_, ?_, ?_, ?_⟩
    · intro e σ out h
      cases e with
      | lit l => rw [evalE_lit] at h; cases h; exact ⟨rfl, rfl⟩
      | grouping child => rw [evalE_grouping] at h; exact ihE child σ out h
      | unary operator right =>
        rw [evalE_unary] at h
        exact resBind_pres (fun o ho => ihE _ _ _ ho)
          (fun rv σ' o hk => evalUnaryOp_pres _ _ _ _ hk) h
      | binary left operator right =>
        rw [evalE_binary] at h
        refine resBind_pres (fun o ho => ihE _ _ _ ho) ?_ h
        intro lv σ₁ o₁ h₁
        exact resBind_pres (fun o ho => ihE _ _ _ ho)
          (fun rv σ₂ o₂ h₂ => evalBinaryOp_pres _ _ _ _ _ h₂) h₁
      | var name =>
        rw [evalE_var] at h
        rcases hg : getVarChain σ.frames.length σ.frames σ.env name with _ | err | v
        · rw [hg] at h; exact Option.noConfusion h
        · rw [hg] at h
          have h' : some ((Except.error err : Except InterpreterError Value), σ) = some out := h
          cases h'; exact ⟨rfl, rfl⟩
        · rw [hg] at h
          have h' : some ((Except.ok v : Except InterpreterError Value), σ) = some out := h
          cases h'; exact ⟨rfl, rfl⟩
      | assign name right =>
        rw [evalE_assign] at h
        exact resBind_pres (fun o ho => ihE _ _ _ ho)
          (fun v σ₁ o₁ h₁ => applyAssign_pres _ _ _ _ h₁) h
      | logical left operator right =>
        rw [evalE_logical] at h
        refine resBind_pres (fun o ho => ihE _ _ _ ho) ?_ h
        intro lv σ₁ o₁ h₁
        split at h₁
        · split at h₁
          · cases h₁; exact ⟨rfl, rfl⟩
          · exact ihE _ _ _ h₁
        · split at h₁
          · cases h₁; exact ⟨rfl, rfl⟩
          · exact ihE _ _ _ h₁
        · simp at h₁
      | call callee parenthesis arguments =>
        rw [evalE_call] at h
        refine resBind_pres (fun o ho => ihE _ _ _ ho) ?_ h
        intro cv σ₁ o₁ h₁
        refine resBind_pres (fun o ho => ihA _ _ _ ho) ?_ h₁
        intro argVals σ₂ o₂ h₂
        split at h₂
        · split at h₂
          · simp at h₂
          · split at h₂
            · cases h₂; exact ⟨rfl, rfl⟩
            · refine resBind_pres (fun o ho => ihC _ _ _ _ _ ho) ?_ h₂
              intro returned σ₃ o₃ h₃
              cases h₃; exact ⟨rfl, rfl⟩
        · cases h₂; exact ⟨rfl, rfl⟩
    · intro es σ out h
      cases es with
      | nil => rw [evalArgs_nil] at h; cases h; exact ⟨rfl, rfl⟩
      | cons e rest =>
        rw [evalArgs_cons] at h
        refine resBind_pres (fun o ho => ihE _ _ _ ho) ?_ h
        intro v σ₁ o₁ h₁
        refine resBind_pres (fun o ho => ihA _ _ _ ho) ?_ h₁
        intro vs σ₂ o₂ h₂
        cases h₂; exact ⟨rfl, rfl⟩
    · intro c args t σ out h
      cases c with
      | clock => rw [callCallable_clock] at h; cases h; exact ⟨rfl, rfl⟩
      | lox name params body closure =>
        rw [callCallable_lox] at h
        have hp := ihB _ _ _ _ h
        refine ⟨?_, ?_⟩
        · rw [hp.1]; simp
        · rw [hp.2]; simp
    · intro s σ out h
      cases s with
      | expr e =>
        rw [execS_expr] at h
        refine resBind_pres (fun o ho => ihE _ _ _ ho) ?_ h
        intro v σ' o' h'
        cases h'; exact ⟨rfl, rfl⟩
      | func name params body =>
        rw [execS_func] at h
        cases h
        exact ⟨by simp, by simp⟩
      | ifS condition thenBranch elseBranch =>
        rw [execS_if] at h
        refine resBind_pres (fun o ho => ihE _ _ _ ho) ?_ h
        intro cv σ' o' h'
        split at h'
        · exact ihS _ _ _ h'
        · cases elseBranch with
          | some st => exact ihS _ _ _ h'
          | none => cases h'; exact ⟨rfl, rfl⟩
      | print e =>
        rw [execS_print] at h
        refine resBind_pres (fun o ho => ihE _ _ _ ho) ?_ h
        intro v σ' o' h'
        cases h'; exact ⟨rfl, rfl⟩
      | var name initializer =>
        cases initializer with
        | some e =>
          rw [execS_varDecl_some] at h
          refine resBind_pres (fun o ho => ihE _ _ _ ho) ?_ h
          intro v σ' o' h'
          cases h'
          exact ⟨by simp, by simp⟩
        | none =>
          rw [execS_varDecl_none] at h
          cases h
          exact ⟨by simp, by simp⟩
      | ret keyword value =>
        cases value with
        | some e =>
          rw [execS_ret_some] at h
          refine resBind_pres (fun o ho => ihE _ _ _ ho) ?_ h
          intro v σ' o' h'
          cases h'; exact ⟨rfl, rfl⟩
        | none => rw [execS_ret_none] at h; cases h; exact ⟨rfl, rfl⟩
      | whileS condition body =>
        rw [execS_while] at h
        refine resBind_pres (fun o ho => ihE _ _ _ ho) ?_ h
        intro cv σ₁ o₁ h₁
        split at h₁
        · cases h₁; exact ⟨rfl, rfl⟩
        · refine resBind_pres (fun o ho => ihS _ _ _ ho) ?_ h₁
          intro carrier σ₂ o₂ h₂
          cases carrier with
          | some v => cases h₂; exact ⟨rfl, rfl⟩
          | none => exact ihS _ _ _ h₂
      | block statements =>
        rw [execS_block] at h
        have hp := ihB _ _ _ _ h
        exact ⟨hp.1, hp.2⟩
    · intro ss fid σ out h
      rw [execBlock_succ] at h
      have hq := ihQ _ _ _ _ h
      exact ⟨hq.1, hq.2⟩
    · intro prev ss σ out h
      cases ss with
      | nil => rw [execSeq_nil] at h; cases h; exact ⟨rfl, rfl⟩
      | cons s rest =>
        rw [execSeq_cons] at h
        rcases heq : execS n s σ with _ | ⟨r, σ'⟩
        · rw [heq] at h; exact Option.noConfusion h
        · rw [heq] at h
          rcases r with err | carrier
          · have h' : some ((Except.error err : Except InterpreterError (Option Value)),
                { σ' with env := prev }) = some out := h
            cases h'
            exact ⟨rfl, (ihS _ _ _ heq).2⟩
          · rcases carrier with _ | v
            · have hr := ihQ _ _ _ _ h
              exact ⟨hr.1, hr.2.trans (ihS _ _ _ heq).2⟩
            · have h' : some ((Except.ok (some v) : Except InterpreterError (Option Value)),
                  { σ' with env := prev }) = some out := h
              cases h'
              exact ⟨rfl, (ihS _ _ _ heq).2⟩

theorem interpretL_pres (fuel : Nat) (ss : List Statement) (σ : St)
    (out : Except InterpreterError Unit × St) (h : interpretL fuel ss σ = some out) :
    Pres σ out.2 := by
  induction ss generalizing σ out with
  | nil => rw [interpretL_nil] at h; cases h; exact ⟨rfl, rfl⟩
  | cons s rest ih =>
    rw [interpretL_cons] at h
    exact resBind_pres (fun o ho => (interp_preserves fuel).2.2.2.1 _ _ _ ho)
      (fun v σ' o ho => ih σ' o ho) h

/-- C1: `execute_block` restores the evaluator's previous current frame on
every exit path — normal completion, a propagated runtime error, and an
early return — and consequently a top-level statement run with the current
frame equal to the globals frame leaves them equal (normally or on a runtime
error), so a top-level program started in the initial interpreter state
always ends with the current frame equal to the globals frame. -/
theorem execute_block_restores_frame :
    (∀ fuel ss fid σ σ', execBlock fuel ss fid σ = some (.ok none, σ') → σ'.env = σ.env) ∧
    (∀ fuel ss fid σ σ' v,
      execBlock fuel ss fid σ = some (.ok (some v), σ') → σ'.env = σ.env) ∧
    (∀ fuel ss fid σ σ' err,
      execBlock fuel ss fid σ = some (.error err, σ') → σ'.env = σ.env) ∧
    (∀ fuel s σ out, σ.env = σ.globals → execS fuel s σ = some out →
      out.2.env = out.2.globals) ∧
    (∀ fuel prog out, interpretL fuel prog initState = some out →
      out.2.env = out.2.globals) := by
  refine ⟨?_, ?_, ?_, ?_, ?_⟩
  · intro fuel ss fid σ σ' h
    exact ((interp_preserves fuel).2.2.2.2.1 _ _ _ _ h).1
  · intro fuel ss fid σ σ' v h
    exact ((interp_preserves fuel).2.2.2.2.1 _ _ _ _ h).1
  · intro fuel ss fid σ σ' err h
    exact ((interp_preserves fuel).2.2.2.2.1 _ _ _ _ h).1
  · intro fuel s σ out hg h
    have hp := (interp_preserves fuel).2.2.2.1 _ _ _ h
    rw [hp.1, hp.2, hg]
  · intro fuel prog out h
    have hp := interpretL_pres _ _ _ _ h
    rw [hp.1, hp.2]; rfl

/-- Witness for C1 at concrete inputs: a block body run in a fresh frame
(index 1) enclosing the globals restores the current frame on normal
completion, on an early return, and on a runtime error (an undefined
variable), and a concrete top-level program ends with the current frame
equal to the globals frame. -/
theorem execute_block_restores_frame_witness :
    ((initState.enclose 0).2.env = 0 ∧
      execBlock 5 [Statement.expr (.lit .nil)] 1 (initState.enclose 0).2 =
        some (.ok none, (initState.enclose 0).2) ∧
      (initState.enclose 0).2.env = (initState.enclose 0).2.env) ∧
    (execBlock 5 [Statement.ret ⟨.return_, "return", none, 1⟩ none] 1 (initState.enclose 0).2 =
        some (.ok (some .nil), (initState.enclose 0).2) ∧
      (initState.enclose 0).2.env = (initState.enclose 0).2.env) ∧
    (execBlock 5 [Statement.expr (.var ⟨.identifier, "missing", none, 1⟩)] 1
        (initState.enclose 0).2 =
      some (.error ⟨some ⟨.identifier, "missing", none, 1⟩, "Undefined variable 'missing'."⟩,
        (initState.enclose 0).2) ∧
      (initState.enclose 0).2.env = (initState.enclose 0).2.env) ∧
    (∀ out, interpretL 5 [Statement.print (.lit (.num (.fin 7)))] initState = some out →
      out.2.env = out.2.globals) := by
  refine ⟨⟨rfl, rfl, ?_⟩, ⟨rfl, ?_⟩, ⟨rfl, ?_⟩, ?_⟩
  · exact execute_block_restores_frame.1 5 [Statement.expr (.lit .nil)] 1
      (initState.enclose 0).2 (initState.enclose 0).2 rfl
  · exact execute_block_restores_frame.2.1 5
      [Statement.ret ⟨.return_, "return", none, 1⟩ none] 1 (initState.enclose 0).2
      (initState.enclose 0).2 .nil rfl
  · exact execute_block_restores_frame.2.2.1 5
      [Statement.expr (.var ⟨.identifier, "missing", none, 1⟩)] 1 (initState.enclose 0).2
      (initState.enclose 0).2 ⟨some ⟨.identifier, "missing", none, 1⟩,
        "Undefined variable 'missing'."⟩ rfl
  · intro out h
    exact execute_block_restores_frame.2.2.2.2 5 _ out h

/-- C5: `==`/`!=` implement structural equality on runtime values: NaN is
unequal to NaN and to every number, finite numbers compare by value, strings
by content, functions by reference identity (store index), nil equals nil,
booleans by value, values of different kinds are unequal, and the
`BangEqual` result is always the boolean negation of the `EqualEqual` result
on the same evaluated operands. -/
theorem equality_structural :
    (valueEq (.num .nan) (.num .nan) = false) ∧
    (∀ x : F64, valueEq (.num x) (.num .nan) = false ∧ valueEq (.num .nan) (.num x) = false) ∧
    (∀ a b : ℚ, (valueEq (.num (.fin a)) (.num (.fin b)) = true) ↔ a = b) ∧
    (∀ a b : String, (valueEq (.str a) (.str b) = true) ↔ a = b) ∧
    (∀ i j : Nat, (valueEq (.fn i) (.fn j) = true) ↔ i = j) ∧
    (valueEq .nil .nil = true) ∧
    (∀ a b : Bool, (valueEq (.boolean a) (.boolean b) = true) ↔ a = b) ∧
    (∀ v w : Value, v.kindIdx ≠ w.kindIdx → valueEq v w = false) ∧
    (∀ fuel left right operator σ σ₁ σ₂ lv rv,
      Token.tokenType operator = .bangEqual →
      evalE fuel left σ = some (.ok lv, σ₁) →
      evalE fuel right σ₁ = some (.ok rv, σ₂) →
      evalE (fuel + 1) (.binary left operator right) σ =
        some (.ok (.boolean (!valueEq lv rv)), σ₂)) ∧
    (∀ fuel left right operator σ σ₁ σ₂ lv rv,
      Token.tokenType operator = .equalEqual →
      evalE fuel left σ = some (.ok lv, σ₁) →
      evalE fuel right σ₁ = some (.ok rv, σ₂) →
      evalE (fuel + 1) (.binary left operator right) σ =
        some (.ok (.boolean (valueEq lv rv)), σ₂)) := by
  refine ⟨rfl, ?_, ?_, ?_, ?_, rfl, ?_, ?_, ?_, ?_⟩
  · intro x; cases x <;> exact ⟨rfl, rfl⟩
  · intro a b; simp [valueEq, F64.beq]
  · intro a b; simp [valueEq]
  · intro i j; simp [valueEq]
  · intro a b; simp [valueEq]
  · intro v w h
    cases v <;> cases w <;> first | rfl | simp [Value.kindIdx] at h
  · intro fuel left right operator σ σ₁ σ₂ lv rv hop h₁ h₂
    rw [evalE_binary, h₁]
    show resBind (evalE fuel right σ₁) _ = _
    rw [h₂]
    show evalBinaryOp operator lv rv σ₂ = _
    unfold evalBinaryOp
    rw [hop]
  · intro fuel left right operator σ σ₁ σ₂ lv rv hop h₁ h₂
    rw [evalE_binary, h₁]
    show resBind (evalE fuel right σ₁) _ = _
    rw [h₂]
    show evalBinaryOp operator lv rv σ₂ = _
    unfold evalBinaryOp
    rw [hop]

/-- Witness for C5 at concrete inputs: cross-kind inequality between `nil`
and a number, and the `!=`/`==` dispatch on two concrete literals. -/
theorem equality_structural_witness :
    (Value.kindIdx .nil ≠ Value.kindIdx (.num (.fin 2)) ∧
      valueEq .nil (.num (.fin 2)) = false) ∧
    evalE 2 (.binary (.lit (.num (.fin 1))) ⟨.bangEqual, "!=", none, 1⟩
        (.lit (.num (.fin 2)))) initState =
      some (.ok (.boolean (!valueEq (.num (.fin 1)) (.num (.fin 2)))), initState) ∧
    evalE 2 (.binary (.lit (.num (.fin 1))) ⟨.equalEqual, "==", none, 1⟩
        (.lit (.num (.fin 2)))) initState =
      some (.ok (.boolean (valueEq (.num (.fin 1)) (.num (.fin 2)))), initState) := by
  refine ⟨⟨?_, ?_⟩, ?_, ?_⟩
  · decide
  · exact equality_structural.2.2.2.2.2.2.2.1 .nil (.num (.fin 2)) (by decide)
  · exact equality_structural.2.2.2.2.2.2.2.2.1 1 _ _ _ initState initState initState
      (.num (.fin 1)) (.num (.fin 2)) rfl rfl rfl
  · exact equality_structural.2.2.2.2.2.2.2.2.2 1 _ _ _ initState initState initState
      (.num (.fin 1)) (.num (.fin 2)) rfl rfl rfl

/-- The value each numeric binary operator produces on two numbers:
arithmetic for `/ * -`, comparison for `> >= < <=` (spec §4.5). Other
token kinds are unused under the theorems' hypotheses. -/
def numOpResult (t : TokenType) (x y : F64) : Value :=
  match t with
  | .slash => .num (x.div y)
  | .star => .num (x.mul y)
  | .minus => .num (x.sub y)
  | .greater => .boolean (x.bgt y)
  | .greaterEqual => .boolean (x.bge y)
  | .less => .boolean (x.blt y)
  | .lessEqual => .boolean (x.ble y)
  | _ => .nil

/-- C3 counterexample: evaluating `true - 1` produces the runtime error
message `Operands must be a number.` (the source's singular wording), not
the message `Operands must be numbers.` the claim states. -/
theorem numeric_binary_ops_counterexample :
    evalE 2 (.binary (.lit (.boolean true)) ⟨.minus, "-", none, 1⟩
        (.lit (.num (.fin 1)))) initState =
      some (.error ⟨some ⟨.minus, "-", none, 1⟩, "Operands must be a number."⟩, initState) ∧
    "Operands must be a number." ≠ "Operands must be numbers." := by
  exact ⟨rfl, by decide⟩

/-- C3 as amended: for the binary operators `- * / < <= > >=`, if both
evaluated operands are Numbers the operation yields the arithmetic or
comparison result; otherwise evaluation fails with a runtime error whose
message is exactly `Operands must be a number.` carrying the operator
token. -/
theorem numeric_binary_ops :
    ∀ fuel left right operator σ σ₁ σ₂ lv rv,
      Token.tokenType operator ∈ [TokenType.slash, .star, .minus, .greater,
        .greaterEqual, .less, .lessEqual] →
      evalE fuel left σ = some (.ok lv, σ₁) →
      evalE fuel right σ₁ = some (.ok rv, σ₂) →
      evalE (fuel + 1) (.binary left operator right) σ =
        some ((match lv, rv with
          | .num x, .num y => .ok (numOpResult (Token.tokenType operator) x y)
          | _, _ => .error ⟨some operator, "Operands must be a number."⟩), σ₂) := by
  intro fuel left right operator σ σ₁ σ₂ lv rv hmem h₁ h₂
  rw [evalE_binary, h₁]
  show resBind (evalE fuel right σ₁) _ = _
  rw [h₂]
  show evalBinaryOp operator lv rv σ₂ = _
  simp only [List.mem_cons, List.not_mem_nil, or_false] at hmem
  rcases hmem with h | h | h | h | h | h | h <;>
    (unfold evalBinaryOp; rw [h];
     cases lv <;> cases rv <;> simp [checkNumberOperands, numOpResult, h])

/-- Witness for C3 at concrete inputs: `6 / 2` evaluates to the number `3`,
and `true - 1` fails with `Operands must be a number.` on the `-` token. -/
theorem numeric_binary_ops_witness :
    evalE 2 (.binary (.lit (.num (.fin 6))) ⟨.slash, "/", none, 1⟩
        (.lit (.num (.fin 2)))) initState =
      some (.ok (numOpResult .slash (.fin 6) (.fin 2)), initState) ∧
    evalE 2 (.binary (.lit (.boolean true)) ⟨.minus, "-", none, 1⟩
        (.lit (.num (.fin 1)))) initState =
      some (.error ⟨some ⟨.minus, "-", none, 1⟩, "Operands must be a number."⟩, initState) := by
  constructor
  · exact numeric_binary_ops 1 _ _ _ initState initState initState
      (.num (.fin 6)) (.num (.fin 2)) (by decide) rfl rfl
  · exact numeric_binary_ops 1 _ _ _ initState initState initState
      (.boolean true) (.num (.fin 1)) (by decide) rfl rfl

/-- C10: a `Return` statement at the top level is not a runtime error:
`interpret` evaluates the return's value expression (when present), discards
the early-return carrier, and continues with the remaining top-level
statements from the state the evaluation produced; with no value expression
it simply continues. -/
theorem top_level_return :
    (∀ fuel keyword e rest σ v σ₁,
      evalE fuel e σ = some (.ok v, σ₁) →
      interpretL (fuel + 1) (Statement.ret keyword (some e) :: rest) σ =
        interpretL (fuel + 1) rest σ₁) ∧
    (∀ fuel keyword rest σ,
      interpretL (fuel + 1) (Statement.ret keyword none :: rest) σ =
        interpretL (fuel + 1) rest σ) := by
  constructor
  · intro fuel keyword e rest σ v σ₁ h
    rw [interpretL_cons, execS_ret_some, h]
    rfl
  · intro fuel keyword rest σ
    rw [interpretL_cons, execS_ret_none]
    rfl

/-- Witness for C10 at a concrete program: `return 1; print 2;` at the top
level continues past the return and finishes successfully having printed
`2`. -/
theorem top_level_return_witness :
    interpretL 3 [Statement.ret ⟨.return_, "return", none, 1⟩ (some (.lit (.num (.fin 1)))),
        Statement.print (.lit (.num (.fin 2)))] initState =
      interpretL 3 [Statement.print (.lit (.num (.fin 2)))] initState ∧
    (interpretL 3 [Statement.ret ⟨.return_, "return", none, 1⟩ (some (.lit (.num (.fin 1)))),
        Statement.print (.lit (.num (.fin 2)))] initState).map
      (fun out => (out.1.isOk, out.2.output)) = some (true, ["2"]) := by
  constructor
  · exact top_level_return.1 2 ⟨.return_, "return", none, 1⟩ (.lit (.num (.fin 1)))
      [Statement.print (.lit (.num (.fin 2)))] initState (.num (.fin 1)) initState rfl
  · rfl

/-- Whether frame `i` of the store binds `name`. -/
def frameContains (frames : List Frame) (i : Nat) (name : String) : Bool :=
  match frames[i]? with
  | some fr => (assocLookup fr.values name).isSome
  | none => false

theorem replaceEntry_eq (k : String) (v : Value) (a : String) (b : Value) (h : a = k) :
    replaceEntry k v (a, b) = (k, v) := by
  simp [replaceEntry, h]

theorem replaceEntry_ne (k : String) (v : Value) (a : String) (b : Value) (h : ¬a = k) :
    replaceEntry k v (a, b) = (a, b) := by
  simp [replaceEntry, h]

theorem assocLookup_map_self (vs : List (String × Value)) (k : String) (v : Value) :
    assocLookup (vs.map (replaceEntry k v)) k =
      if (assocLookup vs k).isSome then some v else none := by
  induction vs with
  | nil => simp [assocLookup]
  | cons p rest ih =>
    obtain ⟨a, b⟩ := p
    by_cases h : a = k
    · rw [List.map_cons, replaceEntry_eq k v a b h]
      simp [assocLookup, h, ih]
    · rw [List.map_cons, replaceEntry_ne k v a b h]
      simp [assocLookup, h, ih]

theorem assocLookup_map_ne (vs : List (String × Value)) (k k' : String) (v : Value)
    (hne : k' ≠ k) :
    assocLookup (vs.map (replaceEntry k v)) k' = assocLookup vs k' := by
  induction vs with
  | nil => simp [assocLookup]
  | cons p rest ih =>
    obtain ⟨a, b⟩ := p
    by_cases h : a = k
    · rw [List.map_cons, replaceEntry_eq k v a b h]
      subst h
      simp [assocLookup, Ne.symm hne, ih]
    · rw [List.map_cons, replaceEntry_ne k v a b h]
      simp [assocLookup, ih]

theorem assocLookup_mapInsert_self (vs : List (String × Value)) (k : String) (v : Value) :
    assocLookup (mapInsert vs k v) k = some v := by
  unfold mapInsert
  split
  · rename_i hpres
    rw [assocLookup_map_self, if_pos hpres]
  · simp [assocLookup]

theorem assocLookup_mapInsert_ne (vs : List (String × Value)) (k k' : String) (v : Value)
    (hne : k' ≠ k) :
    assocLookup (mapInsert vs k v) k' = assocLookup vs k' := by
  unfold mapInsert
  split
  · exact assocLookup_map_ne vs k k' v hne
  · simp [assocLookup, hne.symm]

theorem assocLookup_mapInsert_isSome (vs : List (String × Value)) (k k' : String) (v : Value)
    (hpres : (assocLookup vs k).isSome = true) :
    (assocLookup (mapInsert vs k v) k').isSome = (assocLookup vs k').isSome := by
  by_cases h : k' = k
  · subst h
    rw [assocLookup_mapInsert_self, hpres]
    rfl
  · rw [assocLookup_mapInsert_ne vs k k' v h]

/-- A successful `assign` mutates exactly the frame `findFrame` designates —
the first frame on the chain from the current frame toward the root that
binds the name (the frame `get` would read) — by an overwriting insert, and
that frame did bind the name beforehand. -/
theorem assignVarChain_shape : ∀ fuel frames fid tok v frames',
    assignVarChain fuel frames fid tok v = some (.ok frames') →
    ∃ j fr, findFrame fuel frames fid tok.lexeme = some j ∧ frames[j]? = some fr ∧
      (assocLookup fr.values tok.lexeme).isSome = true ∧
      frames' = frames.set j { fr with values := mapInsert fr.values tok.lexeme v } := by
  intro fuel
  induction fuel with
  | zero =>
    intro frames fid tok v frames' h
    simp [assignVarChain] at h
  | succ n ih =>
    intro frames fid tok v frames' h
    rw [assignVarChain] at h
    rcases hf : frames[fid]? with _ | fr
    · simp only [hf] at h
      exact Option.noConfusion h
    · simp only [hf] at h
      by_cases hc : (assocLookup fr.values tok.lexeme).isSome = true
      · rw [if_pos hc] at h
        have h' : frames' =
            frames.set fid { fr with values := mapInsert fr.values tok.lexeme v } := by
          cases h; rfl
        refine ⟨fid, fr, ?_, hf, hc, h'⟩
        rw [findFrame]
        simp only [hf]
        rw [if_pos hc]
      · rw [if_neg hc] at h
        rcases hp : fr.enclosing with _ | parent
        · simp only [hp] at h
          exact absurd h (by simp)
        · simp only [hp] at h
          obtain ⟨j, fr', hfind, hj, hc', hset⟩ := ih frames parent tok v frames' h
          refine ⟨j, fr', ?_, hj, hc', hset⟩
          rw [findFrame]
          simp only [hf]
          rw [if_neg hc]
          simp only [hp]
          exact hfind

/-- After a successful `assign` of `v`, `get` from the same frame returns
`v`. -/
theorem getVarChain_after_assign : ∀ fuel frames fid tok v frames',
    assignVarChain fuel frames fid tok v = some (.ok frames') →
    getVarChain fuel frames' fid tok = some (.ok v) := by
  intro fuel
  induction fuel with
  | zero =>
    intro frames fid tok v frames' h
    simp [assignVarChain] at h
  | succ n ih =>
    intro frames fid tok v frames' h
    rw [assignVarChain] at h
    rcases hf : frames[fid]? with _ | fr
    · simp only [hf] at h
      exact Option.noConfusion h
    · simp only [hf] at h
      by_cases hc : (assocLookup fr.values tok.lexeme).isSome = true
      · rw [if_pos hc] at h
        have h' : frames' =
            frames.set fid { fr with values := mapInsert fr.values tok.lexeme v } := by
          cases h; rfl
        have hlt : fid < frames.length := (List.getElem?_eq_some.mp hf).1
        rw [getVarChain, h']
        simp only [List.getElem?_set_self hlt, assocLookup_mapInsert_self]
      · rw [if_neg hc] at h
        rcases hp : fr.enclosing with _ | parent
        · simp only [hp] at h
          exact absurd h (by simp)
        · simp only [hp] at h
          obtain ⟨j, fr', hfind, hj, hc', hset⟩ :=
            assignVarChain_shape n frames parent tok v frames' h
          have hne : j ≠ fid := by
            intro hjf
            rw [hjf, hf] at hj
            cases hj
            rw [hc'] at hc
            exact hc rfl
          have hfid : frames'[fid]? = some fr := by
            rw [hset, List.getElem?_set_ne hne, hf]
          rw [getVarChain]
          simp only [hfid]
          rcases hlook : assocLookup fr.values tok.lexeme with _ | w
          · simp only [hlook, hp]
            exact ih frames parent tok v frames' h
          · rw [hlook] at hc
            exact absurd rfl hc

/-- A failed `assign` carries the name token and the exact message
`Undefined variable '<lexeme>'.`, and no frame on the chain binds the
name (`findFrame` finds nothing); `get` fails with the same error. -/
theorem assignVarChain_error : ∀ fuel frames fid tok v e,
    assignVarChain fuel frames fid tok v = some (.error e) →
    e.token = some tok ∧ e.message = "Undefined variable '" ++ tok.lexeme ++ "'." ∧
    findFrame fuel frames fid tok.lexeme = none ∧
    getVarChain fuel frames fid tok = some (.error e) := by
  intro fuel
  induction fuel with
  | zero =>
    intro frames fid tok v e h
    simp [assignVarChain] at h
  | succ n ih =>
    intro frames fid tok v e h
    rw [assignVarChain] at h
    rcases hf : frames[fid]? with _ | fr
    · simp only [hf] at h
      exact Option.noConfusion h
    · simp only [hf] at h
      by_cases hc : (assocLookup fr.values tok.lexeme).isSome = true
      · rw [if_pos hc] at h
        cases h
      · rw [if_neg hc] at h
        rcases hp : fr.enclosing with _ | parent
        · simp only [hp] at h
          have h' : e = ⟨some tok, "Undefined variable '" ++ tok.lexeme ++ "'."⟩ := by
            cases h; rfl
          subst h'
          refine ⟨rfl, rfl, ?_, ?_⟩
          · rw [findFrame]
            simp only [hf]
            rw [if_neg hc]
            simp only [hp]
          · rw [getVarChain]
            simp only [hf]
            rcases hlook : assocLookup fr.values tok.lexeme with _ | w
            · simp only [hlook, hp]
            · rw [hlook] at hc
              exact absurd rfl hc
        · simp only [hp] at h
          obtain ⟨h1, h2, h3, h4⟩ := ih frames parent tok v e h
          refine ⟨h1, h2, ?_, ?_⟩
          · rw [findFrame]
            simp only [hf]
            rw [if_neg hc]
            simp only [hp]
            exact h3
          · rw [getVarChain]
            simp only [hf]
            rcases hlook : assocLookup fr.values tok.lexeme with _ | w
            · simp only [hlook, hp]
              exact h4
            · rw [hlook] at hc
              exact absurd rfl hc

/-- A successful `assign` never creates or removes a binding: every frame
binds exactly the names it bound before. -/
theorem assignVarChain_keys : ∀ fuel frames fid tok v frames',
    assignVarChain fuel frames fid tok v = some (.ok frames') →
    ∀ i nm, frameContains frames' i nm = frameContains frames i nm := by
  intro fuel frames fid tok v frames' h i nm
  obtain ⟨j, fr, hfind, hj, hc, hset⟩ := assignVarChain_shape fuel frames fid tok v frames' h
  by_cases hij : j = i
  · subst hij
    have hlt : j < frames.length := (List.getElem?_eq_some.mp hj).1
    unfold frameContains
    rw [hset, List.getElem?_set_self hlt, hj]
    exact assocLookup_mapInsert_isSome fr.values tok.lexeme nm v hc
  · unfold frameContains
    rw [hset, List.getElem?_set_ne hij]

/-- C2: evaluating `a = v` returns the value of `v` and a subsequent read of
`a` yields that value; `assign` walks the frames toward the root and mutates
the first frame containing the name (the frame `findFrame` designates) by an
overwriting insert, never creating a binding (every frame's key set is
unchanged); assigning a name bound in no frame fails with the runtime error
`Undefined variable '<name>'.` carrying the name token, and the resulting
state is exactly the post-right-hand-side state — every frame's bindings
unchanged. -/
theorem assignment_semantics :
    (∀ fuel name rhs σ v σ₁ frames',
      evalE fuel rhs σ = some (.ok v, σ₁) →
      assignVarChain σ₁.frames.length σ₁.frames σ₁.env name v = some (.ok frames') →
      evalE (fuel + 1) (.assign name rhs) σ = some (.ok v, { σ₁ with frames := frames' }) ∧
      (∀ g, evalE (g + 1) (.var name) { σ₁ with frames := frames' } =
        some (.ok v, { σ₁ with frames := frames' }))) ∧
    (∀ fuel frames fid tok v frames',
      assignVarChain fuel frames fid tok v = some (.ok frames') →
      (∃ j fr, findFrame fuel frames fid tok.lexeme = some j ∧ frames[j]? = some fr ∧
        (assocLookup fr.values tok.lexeme).isSome = true ∧
        frames' = frames.set j { fr with values := mapInsert fr.values tok.lexeme v }) ∧
      (∀ i nm, frameContains frames' i nm = frameContains frames i nm)) ∧
    (∀ fuel frames fid tok v e,
      assignVarChain fuel frames fid tok v = some (.error e) →
      e.token = some tok ∧ e.message = "Undefined variable '" ++ tok.lexeme ++ "'." ∧
      findFrame fuel frames fid tok.lexeme = none) ∧
    (∀ fuel name rhs σ v σ₁ e,
      evalE fuel rhs σ = some (.ok v, σ₁) →
      assignVarChain σ₁.frames.length σ₁.frames σ₁.env name v = some (.error e) →
      evalE (fuel + 1) (.assign name rhs) σ = some (.error e, σ₁)) := by
  refine ⟨?_, ?_, ?_, ?_⟩
  · intro fuel name rhs σ v σ₁ frames' h ha
    constructor
    · rw [evalE_assign, h]
      show applyAssign name v σ₁ = _
      unfold applyAssign
      simp only [ha]
    · intro g
      have hg := getVarChain_after_assign σ₁.frames.length σ₁.frames σ₁.env name v frames' ha
      have hlen : frames'.length = σ₁.frames.length := by
        obtain ⟨j, fr, _, _, _, hset⟩ :=
          assignVarChain_shape σ₁.frames.length σ₁.frames σ₁.env name v frames' ha
        rw [hset, List.length_set]
      rw [evalE_var]
      show (match getVarChain frames'.length frames' σ₁.env name with
        | none => none
        | some (Except.ok w) => some (Except.ok w, { σ₁ with frames := frames' })
        | some (Except.error err) =>
          some (Except.error err, { σ₁ with frames := frames' })) = _
      rw [hlen]
      simp only [hg]
  · intro fuel frames fid tok v frames' h
    exact ⟨assignVarChain_shape fuel frames fid tok v frames' h,
      assignVarChain_keys fuel frames fid tok v frames' h⟩
  · intro fuel frames fid tok v e h
    obtain ⟨h1, h2, h3, _⟩ := assignVarChain_error fuel frames fid tok v e h
    exact ⟨h1, h2, h3⟩
  · intro fuel name rhs σ v σ₁ e h ha
    rw [evalE_assign, h]
    show applyAssign name v σ₁ = _
    unfold applyAssign
    simp only [ha]

/-- Witness for C2 at concrete inputs: with `a` bound to `1` in the globals
frame, `a = 2` evaluates to `2` and a subsequent read of `a` yields `2` with
the globals frame mutated in place; assigning the unbound name `missing`
fails with `Undefined variable 'missing'.` leaving the state unchanged. -/
theorem assignment_semantics_witness :
    (evalE 2 (.assign ⟨.identifier, "a", none, 1⟩ (.lit (.num (.fin 2))))
        (initState.define "a" (.num (.fin 1))) =
      some (.ok (.num (.fin 2)),
        { initState.define "a" (.num (.fin 1)) with
          frames := [⟨none, [("a", .num (.fin 2)), ("clock", .fn 0)]⟩] }) ∧
      evalE 2 (.var ⟨.identifier, "a", none, 1⟩)
        { initState.define "a" (.num (.fin 1)) with
          frames := [⟨none, [("a", .num (.fin 2)), ("clock", .fn 0)]⟩] } =
        some (.ok (.num (.fin 2)),
          { initState.define "a" (.num (.fin 1)) with
            frames := [⟨none, [("a", .num (.fin 2)), ("clock", .fn 0)]⟩] })) ∧
    evalE 2 (.assign ⟨.identifier, "missing", none, 1⟩ (.lit (.num (.fin 2)))) initState =
      some (.error ⟨some ⟨.identifier, "missing", none, 1⟩, "Undefined variable 'missing'."⟩,
        initState) := by
  constructor
  · have hw := assignment_semantics.1 1 ⟨.identifier, "a", none, 1⟩ (.lit (.num (.fin 2)))
      (initState.define "a" (.num (.fin 1))) (.num (.fin 2))
      (initState.define "a" (.num (.fin 1)))
      [⟨none, [("a", .num (.fin 2)), ("clock", .fn 0)]⟩] rfl rfl
    exact ⟨hw.1, hw.2 1⟩
  · exact assignment_semantics.2.2.2 1 ⟨.identifier, "missing", none, 1⟩
      (.lit (.num (.fin 2))) initState (.num (.fin 2)) initState
      ⟨some ⟨.identifier, "missing", none, 1⟩, "Undefined variable 'missing'."⟩ rfl rfl

/-- C4 counterexample: in `1(missing)` the callee value `1` is not a
function, yet evaluation fails with the argument's error
`Undefined variable 'missing'.` — the arguments are evaluated before the
callee is checked, so the check does not happen "before any argument
expression is evaluated" as the claim states. -/
theorem call_check_order_counterexample :
    evalE 3 (.call (.lit (.num (.fin 1))) ⟨.rightParen, ")", none, 1⟩
        [.var ⟨.identifier, "missing", none, 1⟩]) initState =
      some (.error ⟨some ⟨.identifier, "missing", none, 1⟩, "Undefined variable 'missing'."⟩,
        initState) ∧
    "Undefined variable 'missing'." ≠ "Can only call functions and classes." :=
  ⟨rfl, by decide⟩

/-- C4 as amended: a Call expression first evaluates the callee, then the
argument expressions left to right (an argument's runtime error propagates
immediately); only then, if the callee value is not a function, it fails
with `Can only call functions and classes.` carrying the closing-parenthesis
token; an argument count different from the callable's arity fails with
`Expected N arguments but got M.` carrying that token; otherwise the call's
result is the callable's returned value, or Nil when it returns none. -/
theorem call_semantics :
    (∀ fuel callee paren args σ cv σ₁ argVals σ₂,
      evalE fuel callee σ = some (.ok cv, σ₁) →
      evalArgs fuel args σ₁ = some (.ok argVals, σ₂) →
      (∀ fid, cv ≠ .fn fid) →
      evalE (fuel + 1) (.call callee paren args) σ =
        some (.error ⟨some paren, "Can only call functions and classes."⟩, σ₂)) ∧
    (∀ fuel callee paren args σ fid σ₁ argVals σ₂ c,
      evalE fuel callee σ = some (.ok (.fn fid), σ₁) →
      evalArgs fuel args σ₁ = some (.ok argVals, σ₂) →
      σ₂.funcs[fid]? = some c →
      argVals.length ≠ c.arity →
      evalE (fuel + 1) (.call callee paren args) σ =
        some (.error ⟨some paren, "Expected " ++ toString c.arity ++
          " arguments but got " ++ toString argVals.length ++ "."⟩, σ₂)) ∧
    (∀ fuel callee paren args σ fid σ₁ argVals σ₂ c ret σ₃,
      evalE fuel callee σ = some (.ok (.fn fid), σ₁) →
      evalArgs fuel args σ₁ = some (.ok argVals, σ₂) →
      σ₂.funcs[fid]? = some c →
      argVals.length = c.arity →
      callCallable fuel c argVals paren σ₂ = some (.ok ret, σ₃) →
      evalE (fuel + 1) (.call callee paren args) σ = some (.ok (ret.getD .nil), σ₃)) ∧
    (∀ fuel e rest σ err σ₁,
      evalE fuel e σ = some (.error err, σ₁) →
      evalArgs (fuel + 1) (e :: rest) σ = some (.error err, σ₁)) := by
  refine ⟨?_, ?_, ?_, ?_⟩
  · intro fuel callee paren args σ cv σ₁ argVals σ₂ h₁ h₂ hnf
    rw [evalE_call, h₁, resBind_ok]
    simp only []
    rw [h₂, resBind_ok]
  · intro fuel callee paren args σ fid σ₁ argVals σ₂ c h₁ h₂ hfn hne
    rw [evalE_call, h₁, resBind_ok]
    simp only []
    rw [h₂, resBind_ok]
    simp only [hfn]
    rw [if_pos hne]
  · intro fuel callee paren args σ fid σ₁ argVals σ₂ c ret σ₃ h₁ h₂ hfn harity hc
    rw [evalE_call, h₁, resBind_ok]
    simp only []
    rw [h₂, resBind_ok]
    simp only [hfn]
    rw [if_neg (by simp [harity])]
    rw [hc, resBind_ok]
  · intro fuel e rest σ err σ₁ h
    rw [evalArgs_cons, h]
    rfl

/-- Witness for C4 at concrete inputs: `1()` fails with `Can only call
functions and classes.`; `clock(1)` fails with `Expected 0 arguments but got
1.`; `clock()` succeeds and returns the clock's number; an argument error in
`1(missing)` propagates before any callee check. -/
theorem call_semantics_witness :
    evalE 3 (.call (.lit (.num (.fin 1))) ⟨.rightParen, ")", none, 1⟩ []) initState =
      some (.error ⟨some ⟨.rightParen, ")", none, 1⟩,
        "Can only call functions and classes."⟩, initState) ∧
    evalE 3 (.call (.var ⟨.identifier, "clock", none, 1⟩) ⟨.rightParen, ")", none, 1⟩
        [.lit (.num (.fin 1))]) initState =
      some (.error ⟨some ⟨.rightParen, ")", none, 1⟩,
        "Expected 0 arguments but got 1."⟩, initState) ∧
    evalE 3 (.call (.var ⟨.identifier, "clock", none, 1⟩) ⟨.rightParen, ")", none, 1⟩ [])
        initState =
      some (.ok ((some (Value.num (.fin 0))).getD .nil), initState) ∧
    evalArgs 2 [Expression.var ⟨.identifier, "missing", none, 1⟩] initState =
      some (.error ⟨some ⟨.identifier, "missing", none, 1⟩,
        "Undefined variable 'missing'."⟩, initState) := by
  refine ⟨?_, ?_, ?_, ?_⟩
  · exact call_semantics.1 2 (.lit (.num (.fin 1))) ⟨.rightParen, ")", none, 1⟩ []
      initState (.num (.fin 1)) initState [] initState rfl rfl
      (fun fid h => Value.noConfusion h)
  · exact call_semantics.2.1 2 (.var ⟨.identifier, "clock", none, 1⟩)
      ⟨.rightParen, ")", none, 1⟩ [.lit (.num (.fin 1))] initState 0 initState
      [.num (.fin 1)] initState .clock rfl rfl rfl (by decide)
  · exact call_semantics.2.2.1 2 (.var ⟨.identifier, "clock", none, 1⟩)
      ⟨.rightParen, ")", none, 1⟩ [] initState 0 initState [] initState .clock
      (some (Value.num (.fin 0))) initState rfl rfl rfl rfl rfl
  · exact call_semantics.2.2.2 1 (.var ⟨.identifier, "missing", none, 1⟩) [] initState
      ⟨some ⟨.identifier, "missing", none, 1⟩, "Undefined variable 'missing'."⟩
      initState rfl

/-- The `evaluate` subcommand's result printing (`main.rs`, evaluate
branch): a `Number` result prints via `println!("{}", x)` on the `f64`
itself — Rust's default minimal-precision display — and every other value
via the `Value` display. -/
def evaluateCmdRender (funcs : List Callable) : Value → String
  | .num x => rustF64Display x
  | v => valueDisplay funcs v

/-- C8 counterexample: the `evaluate` subcommand prints the integral Number
`2` as `2`, with no trailing `.0` — not `2.0` as the claim states — because
`main.rs` prints the `f64` with `println!("{}", x)` exactly like the
runtime `print` statement does. -/
theorem number_format_counterexample :
    evaluateCmdRender [] (.num (.fin 2)) = "2" ∧
    printStmtRender [] (.num (.fin 2)) = "2" ∧
    ("2" : String) ≠ "2.0" := ⟨rfl, rfl, by decide⟩

/-- C8 as amended: the `evaluate` subcommand and the runtime `print`
statement format every value — in particular every Number — identically,
with Rust's default minimal-precision `f64` display; a Number whose value is
mathematically an integer prints as a bare integer with no forced `.0` on
both paths. The two formatting rules coincide; no distinct trailing-`.0`
rule is observable on the evaluate path. -/
theorem number_format_rules :
    (∀ funcs v, evaluateCmdRender funcs v = printStmtRender funcs v) ∧
    (∀ funcs (q : ℚ), q.den = 1 →
      printStmtRender funcs (.num (.fin q)) = toString q.num ∧
      evaluateCmdRender funcs (.num (.fin q)) = toString q.num) := by
  constructor
  · intro funcs v
    cases v <;> rfl
  · intro funcs q h
    constructor <;> · show rustF64Display (.fin q) = _
                      simp only [rustF64Display]
                      rw [if_pos h]

/-- Witness for C8 at a concrete input: both paths print the integral
Number `2` as the bare `2`. -/
theorem number_format_rules_witness :
    evaluateCmdRender [] (.num (.fin 2)) = printStmtRender [] (.num (.fin 2)) ∧
    printStmtRender [] (.num (.fin 2)) = toString (2 : ℚ).num ∧
    evaluateCmdRender [] (.num (.fin 2)) = toString (2 : ℚ).num := by
  refine ⟨number_format_rules.1 [] (.num (.fin 2)), ?_, ?_⟩
  · exact (number_format_rules.2 [] 2 rfl).1
  · exact (number_format_rules.2 [] 2 rfl).2

/-- Modelled from the spec: the live `Literal` `Display` lives in the token
module, which is not under `src/`. Spec §4.4/§6 (and the legacy
implementation in `grammar.rs`) fix it: booleans as `true`/`false`, strings
as raw content, `nil` as `nil`, and numbers with a trailing `.0` when the
value is mathematically an integer, minimal precision otherwise. -/
def literalDisplay : Literal → String
  | .boolean b => if b then "true" else "false"
  | .str s => s
  | .nil => "nil"
  | .num x =>
    match x with
    | .nan => "NaN"
    | .fin q => if q.den = 1 then toString q.num ++ ".0" else rustF64Display (.fin q)

/-- Modelled from the spec: the `{:?}` (derived `Debug`) name of a token
kind in the live token module — the variant name, as the scanner's
`TokenType::LeftParen`-style uses fix it. Used only by the `Call` display
branch, which no claim's theorem inspects. -/
def tokenTypeName : TokenType → String
  | .leftParen => "LeftParen"
  | .rightParen => "RightParen"
  | .leftBrace => "LeftBrace"
  | .rightBrace => "RightBrace"
  | .comma => "Comma"
  | .dot => "Dot"
  | .minus => "Minus"
  | .plus => "Plus"
  | .semicolon => "Semicolon"
  | .slash => "Slash"
  | .star => "Star"
  | .equal => "Equal"
  | .equalEqual => "EqualEqual"
  | .bang => "Bang"
  | .bangEqual => "BangEqual"
  | .less => "Less"
  | .lessEqual => "LessEqual"
  | .greater => "Greater"
  | .greaterEqual => "GreaterEqual"
  | .identifier => "Identifier"
  | .string => "String"
  | .number => "Number"
  | .and_ => "And"
  | .class_ => "Class"
  | .else_ => "Else"
  | .false_ => "False"
  | .for_ => "For"
  | .fun_ => "Fun"
  | .if_ => "If"
  | .nil_ => "Nil"
  | .or_ => "Or"
  | .print_ => "Print"
  | .return_ => "Return"
  | .super_ => "Super"
  | .this_ => "This"
  | .true_ => "True"
  | .var_ => "Var"
  | .while_ => "While"
  | .eof => "Eof"

/-- Modelled from the spec: the `Display` of the live `Token` type
(`<KIND> <lexeme> <literal-or-null>`, spec §6), interpolated by the `Call`
display branch via `{parenthesis}`. No claim's theorem inspects it. -/
def tokenDisplayModel (t : Token) : String :=
  tokenTypeName t.tokenType ++ " " ++ t.lexeme ++ " " ++
    (match t.literal with
     | some l => literalDisplay l
     | none => "null")

mutual

/-- Modelled from the spec: the compiler-derived `Debug` rendering of an
expression, which the `Call` display branch interpolates for its argument
vector via `{arguments:?}`. Modelled in shape only (variant name with
parenthesized children); no claim's theorem inspects this rendering. -/
def exprDebugModel : Expression → String
  | .lit l => "Literal(" ++ literalDisplay l ++ ")"
  | .grouping e => "Grouping(" ++ exprDebugModel e ++ ")"
  | .unary op r => "Unary(" ++ op.lexeme ++ ", " ++ exprDebugModel r ++ ")"
  | .binary l op r =>
    "Binary(" ++ exprDebugModel l ++ ", " ++ op.lexeme ++ ", " ++ exprDebugModel r ++ ")"
  | .var t => "Variable(" ++ t.lexeme ++ ")"
  | .assign t r => "Assign(" ++ t.lexeme ++ ", " ++ exprDebugModel r ++ ")"
  | .logical l op r =>
    "Logical(" ++ exprDebugModel l ++ ", " ++ op.lexeme ++ ", " ++ exprDebugModel r ++ ")"
  | .call c p args =>
    "Call(" ++ exprDebugModel c ++ ", " ++ tokenDisplayModel p ++ ", [" ++
      exprListDebugModel args ++ "])"

/-- Comma-separated `Debug` renderings of an argument vector's elements. -/
def exprListDebugModel : List Expression → String
  | [] => ""
  | [e] => exprDebugModel e
  | e :: rest => exprDebugModel e ++ ", " ++ exprListDebugModel rest

end

/-- `impl fmt::Display for Expression` in `expression.rs`: literals by the
literal rules, `(group <e>)`, unary and binary operator nodes as
`(<lexeme> <child>…)`, variables as `(var <lexeme>)`, assignments as
`(assign <lexeme> <right>)`, logicals as `(logical <lexeme> <left>
<right>)`, and calls as `(call <callee> <paren-token> <args-debug>)`. -/
def exprDisplay : Expression → String
  | .lit value => literalDisplay value
  | .grouping e => "(group " ++ exprDisplay e ++ ")"
  | .unary operator right => "(" ++ operator.lexeme ++ " " ++ exprDisplay right ++ ")"
  | .binary left operator right =>
    "(" ++ operator.lexeme ++ " " ++ exprDisplay left ++ " " ++ exprDisplay right ++ ")"
  | .var name => "(var " ++ name.lexeme ++ ")"
  | .assign name right => "(assign " ++ name.lexeme ++ " " ++ exprDisplay right ++ ")"
  | .logical left operator right =>
    "(logical " ++ operator.lexeme ++ " " ++ exprDisplay left ++ " " ++
      exprDisplay right ++ ")"
  | .call callee parenthesis arguments =>
    "(call " ++ exprDisplay callee ++ " " ++ tokenDisplayModel parenthesis ++ " [" ++
      exprListDebugModel arguments ++ "])"

/-- C9 counterexample: a variable reference displays as `(var <lexeme>)`,
not as its bare lexeme as the claim states. -/
theorem expression_display_counterexample :
    exprDisplay (.var ⟨.identifier, "x", none, 1⟩) = "(var x)" ∧
    ("(var x)" : String) ≠ "x" := ⟨rfl, by decide⟩

/-- C9 as amended: the display form of an expression is S-expression-like
but not uniformly `(<op> <child>…)`: unary and binary operator nodes print
as `(<operator-lexeme> <child>…)`, groupings as `(group <e>)`, literal
values by the literal printing rules, a variable reference as
`(var <lexeme>)`, an assignment as `(assign <lexeme> <right>)`, and a
logical node as `(logical <operator-lexeme> <left> <right>)`; a call prints
as `(call …)` interpolating the closing-parenthesis token's display and a
debug rendering of the argument vector rather than S-expression children. -/
theorem expression_display :
    (∀ l, exprDisplay (.lit l) = literalDisplay l) ∧
    (∀ e, exprDisplay (.grouping e) = "(group " ++ exprDisplay e ++ ")") ∧
    (∀ op r, exprDisplay (.unary op r) =
      "(" ++ Token.lexeme op ++ " " ++ exprDisplay r ++ ")") ∧
    (∀ l op r, exprDisplay (.binary l op r) =
      "(" ++ Token.lexeme op ++ " " ++ exprDisplay l ++ " " ++ exprDisplay r ++ ")") ∧
    (∀ t, exprDisplay (.var t) = "(var " ++ Token.lexeme t ++ ")") ∧
    (∀ t r, exprDisplay (.assign t r) =
      "(assign " ++ Token.lexeme t ++ " " ++ exprDisplay r ++ ")") ∧
    (∀ l op r, exprDisplay (.logical l op r) =
      "(logical " ++ Token.lexeme op ++ " " ++ exprDisplay l ++ " " ++
        exprDisplay r ++ ")") ∧
    exprDisplay (.binary
      (.grouping (.binary (.lit (.num (.fin 1))) ⟨.plus, "+", none, 1⟩
        (.lit (.num (.fin 2)))))
      ⟨.star, "*", none, 1⟩
      (.unary ⟨.minus, "-", none, 1⟩ (.lit (.num (.fin 3))))) =
      "(* (group (+ 1.0 2.0)) (- 3.0))" := by
  refine ⟨?_, ?_, ?_, ?_, ?_, ?_, ?_, ?_⟩
  · intro l; rfl
  · intro e; rfl
  · intro op r; rfl
  · intro l op r; rfl
  · intro t; rfl
  · intro t r; rfl
  · intro l op r; rfl
  · rfl

/-- The scanner state (`Scanner` in `scanner.rs`): the source code points,
their count, the tokens so far, the `start`/`current` cursors, the current
line, and the error flag. -/
structure ScanSt where
  source : List Char
  sourceLen : Nat
  tokens : List Token
  start : Nat
  gcurrent : Nat
  line : Nat
  hadError : Bool
deriving Repr

/-- `Scanner::is_at_end`: `current >= source_len`. -/
def ScanSt.isAtEnd (σ : ScanSt) : Bool := σ.sourceLen ≤ σ.gcurrent

/-- `Scanner::text`: the code points from `start` (inclusive) to `current`
(exclusive). -/
def ScanSt.text (σ : ScanSt) : String :=
  String.mk ((σ.source.drop σ.start).take (σ.gcurrent - σ.start))

/-- `Scanner::advance`: read the code point at `current` and step past it.
Rust would panic on an out-of-range index; every call site is guarded by
`is_at_end`/`peek`, and the out-of-range case (never reached) reads NUL. -/
def scanAdvance (σ : ScanSt) : Char × ScanSt :=
  (σ.source.getD σ.gcurrent '\x00', { σ with gcurrent := σ.gcurrent + 1 })

/-- `Scanner::peek_at`: the code point `n` past `current`, or NUL beyond the
end. -/
def scanPeekAt (σ : ScanSt) (n : Nat) : Char :=
  if σ.sourceLen ≤ σ.gcurrent + n then '\x00' else σ.source.getD (σ.gcurrent + n) '\x00'

/-- `Scanner::peek`. -/
def scanPeek (σ : ScanSt) : Char := scanPeekAt σ 0

/-- `Scanner::match_`: consume the next code point iff it equals
`expected`. -/
def scanMatch (σ : ScanSt) (expected : Char) : Bool × ScanSt :=
  if σ.isAtEnd then (false, σ)
  else if σ.source.getD σ.gcurrent '\x00' ≠ expected then (false, σ)
  else (true, { σ with gcurrent := σ.gcurrent + 1 })

/-- `Scanner::add_token`. -/
def scanAddToken (σ : ScanSt) (tt : TokenType) (lit : Option Literal) : ScanSt :=
  { σ with tokens := σ.tokens ++ [⟨tt, σ.text, lit, σ.line⟩] }

/-- Modelled from the spec: Rust's `char::is_numeric` accepts every Unicode
Number-category character. Modelled as the ASCII digits plus, representing
the many non-ASCII numerics it also accepts, the Arabic-Indic digits
U+0660–U+0669. -/
def charIsNumeric (c : Char) : Bool :=
  c.isDigit || (0x660 ≤ c.toNat && c.toNat ≤ 0x669)

/-- Modelled from the spec: Rust's `char::is_alphabetic` (plus `_` as in
`Scanner::is_alpha`); the ASCII fragment is modelled. -/
def charIsAlpha (c : Char) : Bool := c.isAlpha || c = '_'

/-- `Scanner::is_alpha_or_number`. -/
def charIsAlphaOrNumber (c : Char) : Bool := charIsAlpha c || charIsNumeric c

/-- Numeric value of a string of ASCII digits. -/
def digitsVal (cs : List Char) : Nat := cs.foldl (fun a c => a * 10 + (c.toNat - 48)) 0

/-- Modelled from the spec: `str::parse::<f64>` accepts only the ASCII
float grammar. On the `digits (. digits)?` lexemes the scanner's `number`
produces it yields the exact value; a lexeme containing a non-ASCII digit
is rejected (`Err`, so the source's `.unwrap()` panics). Signs, exponents
and special values never occur in these lexemes and are not modelled. -/
def parseF64 (s : String) : Option F64 :=
  let cs := s.toList
  let intPart := cs.takeWhile Char.isDigit
  let rest := cs.dropWhile Char.isDigit
  if intPart.isEmpty then none
  else
    match rest with
    | [] => some (.fin (digitsVal intPart))
    | '.' :: frac =>
      if !frac.isEmpty && frac.all Char.isDigit then
        some (.fin ((digitsVal intPart : ℚ) + (digitsVal frac : ℚ) / (10 : ℚ) ^ frac.length))
      else none
    | _ => none

/-- The loop of `Scanner::advance_next_line`: consume to end of line. -/
def commentLoop : Nat → ScanSt → ScanSt
  | 0, σ => σ
  | fuel + 1, σ =>
    if scanPeek σ ≠ '\n' && !σ.isAtEnd then commentLoop fuel (scanAdvance σ).2
    else σ

/-- The digit-consuming loop of `Scanner::number`. -/
def numberLoop : Nat → ScanSt → ScanSt
  | 0, σ => σ
  | fuel + 1, σ =>
    if charIsNumeric (scanPeek σ) then numberLoop fuel (scanAdvance σ).2
    else σ

/-- The loop of `Scanner::identifier`. -/
def identLoop : Nat → ScanSt → ScanSt
  | 0, σ => σ
  | fuel + 1, σ =>
    if charIsAlphaOrNumber (scanPeek σ) then identLoop fuel (scanAdvance σ).2
    else σ

/-- The body loop of `Scanner::string`: consume to the closing quote or the
end of input, bumping `line` on newlines. -/
def stringLoop : Nat → ScanSt → ScanSt
  | 0, σ => σ
  | fuel + 1, σ =>
    if scanPeek σ ≠ '"' && !σ.isAtEnd then
      let σ₁ := if scanPeek σ = '\n' then { σ with line := σ.line + 1 } else σ
      stringLoop fuel (scanAdvance σ₁).2
    else σ

/-- `Scanner::error`/`Scanner::report`: print to stderr (not modelled) and
set `had_error`. -/
def scanError (σ : ScanSt) : ScanSt := { σ with hadError := true }

/-- `Scanner::string`: on EOF before the closing quote report
`Unterminated string.` and emit no token; else consume the closing quote
and emit a `String` token whose literal drops the surrounding quotes. -/
def scanString (σ : ScanSt) : ScanSt :=
  let σ₁ := stringLoop (σ.sourceLen + 1) σ
  if σ₁.isAtEnd then scanError σ₁
  else
    let σ₂ := (scanAdvance σ₁).2
    let value := String.mk ((σ₂.source.drop (σ₂.start + 1)).take (σ₂.gcurrent - σ₂.start - 2))
    scanAddToken σ₂ .string (some (.str value))

/-- `Scanner::number`: consume digits, then an optional fraction introduced
by `.` followed by at least one digit, then `parse::<f64>().unwrap()` —
`none` models the panic when the parse fails. -/
def scanNumber (σ : ScanSt) : Option ScanSt :=
  let σ₁ := numberLoop (σ.sourceLen + 1) σ
  let σ₂ :=
    if scanPeek σ₁ = '.' && charIsNumeric (scanPeekAt σ₁ 1) then
      numberLoop (σ₁.sourceLen + 1) (scanAdvance σ₁).2
    else σ₁
  match parseF64 σ₂.text with
  | none => none
  | some x => some (scanAddToken σ₂ .number (some (.num x)))

/-- The keyword table of `Scanner::new`. -/
def keywordType (s : String) : Option TokenType :=
  match s with
  | "and" => some .and_
  | "class" => some .class_
  | "else" => some .else_
  | "false" => some .false_
  | "for" => some .for_
  | "fun" => some .fun_
  | "if" => some .if_
  | "nil" => some .nil_
  | "or" => some .or_
  | "print" => some .print_
  | "return" => some .return_
  | "super" => some .super_
  | "this" => some .this_
  | "true" => some .true_
  | "var" => some .var_
  | "while" => some .while_
  | _ => none

/-- `Scanner::identifier`: consume alphanumerics, then emit the matching
keyword token or `Identifier`. -/
def scanIdentifier (σ : ScanSt) : ScanSt :=
  let σ₁ := identLoop (σ.sourceLen + 1) σ
  scanAddToken σ₁ ((keywordType σ₁.text).getD .identifier) none

/-- `Scanner::scan_token`: dispatch on the next code point. `none` models a
panic (only `number`'s unwrap can produce it). -/
def scanToken (σ : ScanSt) : Option ScanSt :=
  let a := scanAdvance σ
  let c := a.1
  let σ₁ := a.2
  match c with
  | '(' => some (scanAddToken σ₁ .leftParen none)
  | ')' => some (scanAddToken σ₁ .rightParen none)
  | '{' => some (scanAddToken σ₁ .leftBrace none)
  | '}' => some (scanAddToken σ₁ .rightBrace none)
  | ',' => some (scanAddToken σ₁ .comma none)
  | '.' => some (scanAddToken σ₁ .dot none)
  | '-' => some (scanAddToken σ₁ .minus none)
  | '+' => some (scanAddToken σ₁ .plus none)
  | ';' => some (scanAddToken σ₁ .semicolon none)
  | '*' => some (scanAddToken σ₁ .star none)
  | '=' =>
    let m := scanMatch σ₁ '='
    if m.1 then some (scanAddToken m.2 .equalEqual none)
    else some (scanAddToken m.2 .equal none)
  | '!' =>
    let m := scanMatch σ₁ '='
    if m.1 then some (scanAddToken m.2 .bangEqual none)
    else some (scanAddToken m.2 .bang none)
  | '<' =>
    let m := scanMatch σ₁ '='
    if m.1 then some (scanAddToken m.2 .lessEqual none)
    else some (scanAddToken m.2 .less none)
  | '>' =>
    let m := scanMatch σ₁ '='
    if m.1 then some (scanAddToken m.2 .greaterEqual none)
    else some (scanAddToken m.2 .greater none)
  | '/' =>
    let m := scanMatch σ₁ '/'
    if m.1 then some (commentLoop (m.2.sourceLen + 1) m.2)
    else some (scanAddToken m.2 .slash none)
  | ' ' => some σ₁
  | '\r' => some σ₁
  | '\t' => some σ₁
  | '\n' => some { σ₁ with line := σ₁.line + 1 }
  | '"' => some (scanString σ₁)
  | other =>
    if charIsNumeric other then scanNumber σ₁
    else if charIsAlphaOrNumber other then some (scanIdentifier σ₁)
    else some (scanError σ₁)

/-- The outcome of `Scanner::scan_tokens`: the token list (ending in `Eof`)
with the error flag, or a crash (a Rust panic). -/
inductive ScanResult where
  | ok (tokens : List Token) (hadError : Bool)
  | crashed
deriving Repr

/-- The loop of `Scanner::scan_tokens`: while not at the end, set
`start := current` and scan one token; finally push the `Eof` token. The
fuel (`none` when exhausted) is an artifact; `scan_token` always advances,
so `sourceLen + 1` suffices. -/
def scanTokensGo : Nat → ScanSt → Option ScanResult
  | 0, _ => none
  | fuel + 1, σ =>
    if σ.isAtEnd then some (.ok (σ.tokens ++ [⟨.eof, "", none, σ.line⟩]) σ.hadError)
    else
      match scanToken { σ with start := σ.gcurrent } with
      | none => some .crashed
      | some σ' => scanTokensGo fuel σ'

/-- `Scanner::new` followed by `scan_tokens`. -/
def scanSource (cs : List Char) : Option ScanResult :=
  scanTokensGo (cs.length + 1) ⟨cs, cs.length, [], 0, 0, 1, false⟩

/-- C7: the claim fails on the code. The scanner classifies any Unicode
numeric character as beginning a number (`char::is_numeric` in
`Scanner::is_number`), but `Scanner::number` parses the consumed lexeme
with `str::parse::<f64>().unwrap()`, which accepts only ASCII: on the
one-character source `٣` (U+0663, an Arabic-Indic digit) the lexeme fails
to parse and the unwrap panics, so `scan_tokens` does not terminate
normally and returns no Eof-terminated token sequence. On ASCII input
(here `1+2`) it does return a token sequence terminated by exactly one
`Eof` token. -/
theorem scanner_panics_on_unicode_digit :
    charIsNumeric (Char.ofNat 0x663) = true ∧
    parseF64 (String.mk [Char.ofNat 0x663]) = none ∧
    scanSource [Char.ofNat 0x663] = some .crashed ∧
    scanSource ['1', '+', '2'] =
      some (.ok [⟨.number, "1", some (.num (.fin 1)), 1⟩,
        ⟨.plus, "+", none, 1⟩, ⟨.number, "2", some (.num (.fin 2)), 1⟩,
        ⟨.eof, "", none, 1⟩] false) ∧
    ([(⟨.number, "1", some (.num (.fin 1)), 1⟩ : Token),
        ⟨.plus, "+", none, 1⟩, ⟨.number, "2", some (.num (.fin 2)), 1⟩,
        ⟨.eof, "", none, 1⟩].filter (fun t => t.tokenType == TokenType.eof)).length = 1 := by
  refine ⟨by decide, rfl, rfl, rfl, by decide⟩

/-- Parse errors (`ParseError` in `parser.rs`): a formatted message. -/
structure ParseError where
  message : String
deriving DecidableEq, Repr

/-- The parser state (`Parser` in `parser.rs`): the token list and the
`current` index. -/
structure PState where
  tokens : List Token
  pcurrent : Nat
deriving Repr

/-- `Parser::peek`: the token at `current`. Rust indexes the vector (a
panic when out of range); on the Eof-terminated token lists the scanner
produces, `current` never passes the Eof token, and the out-of-range case
(never reached) yields a default Eof token here. -/
def peekT (σ : PState) : Token := σ.tokens.getD σ.pcurrent ⟨.eof, "", none, 0⟩

/-- `Parser::previous`: the token before `current`. -/
def previousT (σ : PState) : Token := σ.tokens.getD (σ.pcurrent - 1) ⟨.eof, "", none, 0⟩

/-- `Parser::is_at_end`. -/
def isAtEndP (σ : PState) : Bool := (peekT σ).tokenType == .eof

/-- `Parser::check`. -/
def checkP (σ : PState) (tt : TokenType) : Bool :=
  if isAtEndP σ then false else (peekT σ).tokenType == tt

/-- `Parser::advance`: step (unless at the end) and return the token just
passed. -/
def advanceP (σ : PState) : Token × PState :=
  let σ' := if isAtEndP σ then σ else { σ with pcurrent := σ.pcurrent + 1 }
  (previousT σ', σ')

/-- `Parser::match_`: advance iff the next token has one of the given
kinds. -/
def matchP (tts : List TokenType) (σ : PState) : Bool × PState :=
  if tts.any (fun tt => checkP σ tt) then (true, (advanceP σ).2) else (false, σ)

/-- `Parser::error`: `[line L] Error at '<lexeme>': <message>`, or
`at end` for the Eof token. -/
def perror (t : Token) (msg : String) : ParseError :=
  if t.tokenType == .eof then
    ⟨"[line " ++ toString t.line ++ "] Error at end: " ++ msg⟩
  else
    ⟨"[line " ++ toString t.line ++ "] Error at '" ++ t.lexeme ++ "': " ++ msg⟩

/-- `Parser::consume`: advance past a token of the expected kind or fail
with `Parser::error` at the next token. -/
def consumeP (tt : TokenType) (msg : String) (σ : PState) :
    Except ParseError (Token × PState) :=
  if checkP σ tt then .ok (advanceP σ) else .error (perror (peekT σ) msg)

/-- The `?` operator on parser results: `none` (out of fuel) and parse
errors propagate, a parsed value and its state flow into the
continuation. -/
def pBind {α β : Type} (x : Option (Except ParseError (α × PState)))
    (k : α → PState → Option (Except ParseError (β × PState))) :
    Option (Except ParseError (β × PState)) :=
  match x with
  | none => none
  | some (.error e) => some (.error e)
  | some (.ok (a, σ)) => k a σ

mutual

/-- `Parser::declaration`. -/
def declarationF (fuel : Nat) (σ : PState) : Option (Except ParseError (Statement × PState)) :=
  match fuel with
  | 0 => none
  | fuel + 1 =>
    let mf := matchP [.fun_] σ
    if mf.1 then functionF fuel "function" mf.2
    else
      let mv := matchP [.var_] σ
      if mv.1 then varDeclF fuel mv.2
      else statementF fuel σ
termination_by structural fuel

/-- `Parser::function`. -/
def functionF (fuel : Nat) (kind : String) (σ : PState) :
    Option (Except ParseError (Statement × PState)) :=
  match fuel with
  | 0 => none
  | fuel + 1 =>
    pBind (some (consumeP .identifier ("Expect " ++ kind ++ " name.") σ)) fun name σ₁ =>
      pBind (some (consumeP .leftParen ("Expect '(' after " ++ kind ++ " name.") σ₁))
        fun _ σ₂ =>
        pBind (if checkP σ₂ .rightParen then some (.ok ([], σ₂)) else paramsLoopF fuel [] σ₂)
          fun params σ₃ =>
          pBind (some (consumeP .rightParen "Expect ')' after parameters." σ₃)) fun _ σ₄ =>
            pBind (some (consumeP .leftBrace
                ("Expect '\x7b' before " ++ kind ++ " body.") σ₄)) fun _ σ₅ =>
              pBind (blockF fuel σ₅) fun body σ₆ =>
                some (.ok (.func name params body, σ₆))
termination_by structural fuel

/-- The parameter loop of `Parser::function` (at most 255 parameters). -/
def paramsLoopF (fuel : Nat) (acc : List Token) (σ : PState) :
    Option (Except ParseError (List Token × PState)) :=
  match fuel with
  | 0 => none
  | fuel + 1 =>
    if 255 ≤ acc.length then
      some (.error (perror (peekT σ) "Can't have more than 255 parameters."))
    else
      pBind (some (consumeP .identifier "Expect parameter name." σ)) fun p σ₁ =>
        let m := matchP [.comma] σ₁
        if m.1 then paramsLoopF fuel (acc ++ [p]) m.2
        else some (.ok (acc ++ [p], m.2))
termination_by structural fuel

/-- `Parser::statement`. -/
def statementF (fuel : Nat) (σ : PState) : Option (Except ParseError (Statement × PState)) :=
  match fuel with
  | 0 => none
  | fuel + 1 =>
    let m1 := matchP [.for_] σ
    if m1.1 then forF fuel m1.2
    else
      let m2 := matchP [.if_] σ
      if m2.1 then ifF fuel m2.2
      else
        let m3 := matchP [.print_] σ
        if m3.1 then printF fuel m3.2
        else
          let m4 := matchP [.return_] σ
          if m4.1 then returnF fuel m4.2
          else
            let m5 := matchP [.while_] σ
            if m5.1 then whileF fuel m5.2
            else
              let m6 := matchP [.leftBrace] σ
              if m6.1 then
                pBind (blockF fuel m6.2) fun ss σ₁ => some (.ok (.block ss, σ₁))
              else exprStatementF fuel σ
termination_by structural fuel

/-- `Parser::for_`, part 1: consume `(` and parse the optional
initializer. -/
def forF (fuel : Nat) (σ : PState) : Option (Except ParseError (Statement × PState)) :=
  match fuel with
  | 0 => none
  | fuel + 1 =>
    pBind (some (consumeP .leftParen "Expect '(' after 'for'." σ)) fun _ σ₁ =>
      let ms := matchP [.semicolon] σ₁
      if ms.1 then forCondF fuel none ms.2
      else
        let mv := matchP [.var_] σ₁
        if mv.1 then
          pBind (varDeclF fuel mv.2) fun s σ₂ => forCondF fuel (some s) σ₂
        else
          pBind (exprStatementF fuel σ₁) fun s σ₂ => forCondF fuel (some s) σ₂
termination_by structural fuel

/-- `Parser::for_`, part 2: the condition defaults to the literal `true`
and is overwritten when one is written before the second `;`. -/
def forCondF (fuel : Nat) (ini : Option Statement) (σ : PState) :
    Option (Except ParseError (Statement × PState)) :=
  match fuel with
  | 0 => none
  | fuel + 1 =>
    if checkP σ .semicolon then forIncrF fuel ini (.lit (.boolean true)) σ
    else pBind (expressionF fuel σ) fun c σ₁ => forIncrF fuel ini c σ₁
termination_by structural fuel

/-- `Parser::for_`, part 3: consume the `;` after the condition and parse
the optional increment. -/
def forIncrF (fuel : Nat) (ini : Option Statement) (cond : Expression) (σ : PState) :
    Option (Except ParseError (Statement × PState)) :=
  match fuel with
  | 0 => none
  | fuel + 1 =>
    pBind (some (consumeP .semicolon "Expect ';' after loop condition." σ)) fun _ σ₁ =>
      if checkP σ₁ .rightParen then forBodyF fuel ini cond none σ₁
      else pBind (expressionF fuel σ₁) fun i σ₂ => forBodyF fuel ini cond (some i) σ₂
termination_by structural fuel

/-- `Parser::for_`, part 4: consume `)`, parse the body, and assemble the
desugared loop — wrap the body with the increment in an inner block when an
increment was written, wrap in a `While` on the condition, and wrap with
the initializer in an outer block when an initializer was written. -/
def forBodyF (fuel : Nat) (ini : Option Statement) (cond : Expression)
    (incr : Option Expression) (σ : PState) :
    Option (Except ParseError (Statement × PState)) :=
  match fuel with
  | 0 => none
  | fuel + 1 =>
    pBind (some (consumeP .rightParen "Expect ')' after for clauses." σ)) fun _ σ₁ =>
      pBind (statementF fuel σ₁) fun body σ₂ =>
        let body1 :=
          match incr with
          | some e => Statement.block [body, .expr e]
          | none => body
        let body2 := Statement.whileS cond body1
        let body3 :=
          match ini with
          | some s => Statement.block [s, body2]
          | none => body2
        some (.ok (body3, σ₂))
termination_by structural fuel

/-- `Parser::if_`. -/
def ifF (fuel : Nat) (σ : PState) : Option (Except ParseError (Statement × PState)) :=
  match fuel with
  | 0 => none
  | fuel + 1 =>
    pBind (some (consumeP .leftParen "Expect '(' after 'if'." σ)) fun _ σ₁ =>
      pBind (expressionF fuel σ₁) fun condition σ₂ =>
        pBind (some (consumeP .rightParen "Expect ')' after if condition." σ₂)) fun _ σ₃ =>
          pBind (statementF fuel σ₃) fun thenBranch σ₄ =>
            let m := matchP [.else_] σ₄
            if m.1 then
              pBind (statementF fuel m.2) fun elseBranch σ₅ =>
                some (.ok (.ifS condition thenBranch (some elseBranch), σ₅))
            else some (.ok (.ifS condition thenBranch none, σ₄))
termination_by structural fuel

/-- `Parser::print`. -/
def printF (fuel : Nat) (σ : PState) : Option (Except ParseError (Statement × PState)) :=
  match fuel with
  | 0 => none
  | fuel + 1 =>
    pBind (expressionF fuel σ) fun e σ₁ =>
      pBind (some (consumeP .semicolon "Expect ';' after value." σ₁)) fun _ σ₂ =>
        some (.ok (.print e, σ₂))

/-- `Parser::return_`: the `return` keyword is the token just matched. -/
def returnF (fuel : Nat) (σ : PState) : Option (Except ParseError (Statement × PState)) :=
  match fuel with
  | 0 => none
  | fuel + 1 =>
    let keyword := previousT σ
    if checkP σ .semicolon then
      pBind (some (consumeP .semicolon "Expect ';' after return value." σ)) fun _ σ₁ =>
        some (.ok (.ret keyword none, σ₁))
    else
      pBind (expressionF fuel σ) fun v σ₁ =>
        pBind (some (consumeP .semicolon "Expect ';' after return value." σ₁)) fun _ σ₂ =>
          some (.ok (.ret keyword (some v), σ₂))

/-- `Parser::while_` (its `)` message says "if condition", as in the
source). -/
def whileF (fuel : Nat) (σ : PState) : Option (Except ParseError (Statement × PState)) :=
  match fuel with
  | 0 => none
  | fuel + 1 =>
    pBind (some (consumeP .leftParen "Expect '(' after 'while'." σ)) fun _ σ₁ =>
      pBind (expressionF fuel σ₁) fun condition σ₂ =>
        pBind (some (consumeP .rightParen "Expect ')' after if condition." σ₂)) fun _ σ₃ =>
          pBind (statementF fuel σ₃) fun body σ₄ =>
            some (.ok (.whileS condition body, σ₄))
termination_by structural fuel

/-- `Parser::variable`. -/
def varDeclF (fuel : Nat) (σ : PState) : Option (Except ParseError (Statement × PState)) :=
  match fuel with
  | 0 => none
  | fuel + 1 =>
    pBind (some (consumeP .identifier "Expect variable name." σ)) fun name σ₁ =>
      let m := matchP [.equal] σ₁
      if m.1 then
        pBind (expressionF fuel m.2) fun init σ₂ =>
          pBind (some (consumeP .semicolon "Expect ';' after variable declaration." σ₂))
            fun _ σ₃ => some (.ok (.var name (some init), σ₃))
      else
        pBind (some (consumeP .semicolon "Expect ';' after variable declaration." m.2))
          fun _ σ₂ => some (.ok (.var name none, σ₂))

/-- The loop of `Parser::block`. -/
def blockLoopF (fuel : Nat) (σ : PState) :
    Option (Except ParseError (List Statement × PState)) :=
  match fuel with
  | 0 => none
  | fuel + 1 =>
    if !checkP σ .rightBrace && !isAtEndP σ then
      pBind (declarationF fuel σ) fun s σ₁ =>
        pBind (blockLoopF fuel σ₁) fun rest σ₂ => some (.ok (s :: rest, σ₂))
    else some (.ok ([], σ))
termination_by structural fuel

/-- `Parser::block`. -/
def blockF (fuel : Nat) (σ : PState) :
    Option (Except ParseError (List Statement × PState)) :=
  match fuel with
  | 0 => none
  | fuel + 1 =>
    pBind (blockLoopF fuel σ) fun ss σ₁ =>
      pBind (some (consumeP .rightBrace "Expect '\x7d' after block." σ₁)) fun _ σ₂ =>
        some (.ok (ss, σ₂))
termination_by structural fuel

/-- `Parser::expression_statement`. -/
def exprStatementF (fuel : Nat) (σ : PState) :
    Option (Except ParseError (Statement × PState)) :=
  match fuel with
  | 0 => none
  | fuel + 1 =>
    pBind (expressionF fuel σ) fun e σ₁ =>
      pBind (some (consumeP .semicolon "Expect ';' after expression." σ₁)) fun _ σ₂ =>
        some (.ok (.expr e, σ₂))

/-- `Parser::expression`. -/
def expressionF (fuel : Nat) (σ : PState) : Option (Except ParseError (Expression × PState)) :=
  match fuel with
  | 0 => none
  | fuel + 1 => assignmentF fuel σ
termination_by structural fuel

/-- `Parser::assignment`: right-associative; only a `Variable` left side
becomes an `Assign`, anything else is `Invalid assignment target.` at the
`=` token. -/
def assignmentF (fuel : Nat) (σ : PState) : Option (Except ParseError (Expression × PState)) :=
  match fuel with
  | 0 => none
  | fuel + 1 =>
    pBind (orF fuel σ) fun e σ₁ =>
      let m := matchP [.equal] σ₁
      if m.1 then
        let equals := previousT m.2
        pBind (assignmentF fuel m.2) fun v σ₂ =>
          match e with
          | .var name => some (.ok (.assign name v, σ₂))
          | _ => some (.error (perror equals "Invalid assignment target."))
      else some (.ok (e, σ₁))
termination_by structural fuel

/-- `Parser::or`. -/
def orF (fuel : Nat) (σ : PState) : Option (Except ParseError (Expression × PState)) :=
  match fuel with
  | 0 => none
  | fuel + 1 => pBind (andF fuel σ) fun e σ₁ => orLoopF fuel e σ₁
termination_by structural fuel

/-- The `or` iteration of `Parser::or`. -/
def orLoopF (fuel : Nat) (acc : Expression) (σ : PState) :
    Option (Except ParseError (Expression × PState)) :=
  match fuel with
  | 0 => none
  | fuel + 1 =>
    let m := matchP [.or_] σ
    if m.1 then
      let operator := previousT m.2
      pBind (andF fuel m.2) fun r σ₂ => orLoopF fuel (.logical acc operator r) σ₂
    else some (.ok (acc, σ))
termination_by structural fuel

/-- `Parser::and`. -/
def andF (fuel : Nat) (σ : PState) : Option (Except ParseError (Expression × PState)) :=
  match fuel with
  | 0 => none
  | fuel + 1 => pBind (equalityF fuel σ) fun e σ₁ => andLoopF fuel e σ₁
termination_by structural fuel

/-- The `and` iteration of `Parser::and`. -/
def andLoopF (fuel : Nat) (acc : Expression) (σ : PState) :
    Option (Except ParseError (Expression × PState)) :=
  match fuel with
  | 0 => none
  | fuel + 1 =>
    let m := matchP [.and_] σ
    if m.1 then
      let operator := previousT m.2
      pBind (equalityF fuel m.2) fun r σ₂ => andLoopF fuel (.logical acc operator r) σ₂
    else some (.ok (acc, σ))
termination_by structural fuel

/-- `Parser::equality`. -/
def equalityF (fuel : Nat) (σ : PState) : Option (Except ParseError (Expression × PState)) :=
  match fuel with
  | 0 => none
  | fuel + 1 => pBind (comparisonF fuel σ) fun e σ₁ => equalityLoopF fuel e σ₁
termination_by structural fuel

/-- The iteration of `Parser::equality`. -/
def equalityLoopF (fuel : Nat) (acc : Expression) (σ : PState) :
    Option (Except ParseError (Expression × PState)) :=
  match fuel with
  | 0 => none
  | fuel + 1 =>
    let m := matchP [.bangEqual, .equalEqual] σ
    if m.1 then
      let operator := previousT m.2
      pBind (comparisonF fuel m.2) fun r σ₂ =>
        equalityLoopF fuel (.binary acc operator r) σ₂
    else some (.ok (acc, σ))
termination_by structural fuel

/-- `Parser::comparison`. -/
def comparisonF (fuel : Nat) (σ : PState) : Option (Except ParseError (Expression × PState)) :=
  match fuel with
  | 0 => none
  | fuel + 1 => pBind (termF fuel σ) fun e σ₁ => comparisonLoopF fuel e σ₁
termination_by structural fuel

/-- The iteration of `Parser::comparison`. -/
def comparisonLoopF (fuel : Nat) (acc : Expression) (σ : PState) :
    Option (Except ParseError (Expression × PState)) :=
  match fuel with
  | 0 => none
  | fuel + 1 =>
    let m := matchP [.greater, .greaterEqual, .less, .lessEqual] σ
    if m.1 then
      let operator := previousT m.2
      pBind (termF fuel m.2) fun r σ₂ =>
        comparisonLoopF fuel (.binary acc operator r) σ₂
    else some (.ok (acc, σ))
termination_by structural fuel

/-- `Parser::term`. -/
def termF (fuel : Nat) (σ : PState) : Option (Except ParseError (Expression × PState)) :=
  match fuel with
  | 0 => none
  | fuel + 1 => pBind (factorF fuel σ) fun e σ₁ => termLoopF fuel e σ₁
termination_by structural fuel

/-- The iteration of `Parser::term`. -/
def termLoopF (fuel : Nat) (acc : Expression) (σ : PState) :
    Option (Except ParseError (Expression × PState)) :=
  match fuel with
  | 0 => none
  | fuel + 1 =>
    let m := matchP [.minus, .plus] σ
    if m.1 then
      let operator := previousT m.2
      pBind (factorF fuel m.2) fun r σ₂ => termLoopF fuel (.binary acc operator r) σ₂
    else some (.ok (acc, σ))
termination_by structural fuel

/-- `Parser::factor`. -/
def factorF (fuel : Nat) (σ : PState) : Option (Except ParseError (Expression × PState)) :=
  match fuel with
  | 0 => none
  | fuel + 1 => pBind (unaryF fuel σ) fun e σ₁ => factorLoopF fuel e σ₁
termination_by structural fuel

/-- The iteration of `Parser::factor`. -/
def factorLoopF (fuel : Nat) (acc : Expression) (σ : PState) :
    Option (Except ParseError (Expression × PState)) :=
  match fuel with
  | 0 => none
  | fuel + 1 =>
    let m := matchP [.slash, .star] σ
    if m.1 then
      let operator := previousT m.2
      pBind (unaryF fuel m.2) fun r σ₂ => factorLoopF fuel (.binary acc operator r) σ₂
    else some (.ok (acc, σ))
termination_by structural fuel

/-- `Parser::unary`. -/
def unaryF (fuel : Nat) (σ : PState) : Option (Except ParseError (Expression × PState)) :=
  match fuel with
  | 0 => none
  | fuel + 1 =>
    let m := matchP [.bang, .minus] σ
    if m.1 then
      let operator := previousT m.2
      pBind (unaryF fuel m.2) fun r σ₂ => some (.ok (.unary operator r, σ₂))
    else callF fuel σ
termination_by structural fuel

/-- `Parser::call`. -/
def callF (fuel : Nat) (σ : PState) : Option (Except ParseError (Expression × PState)) :=
  match fuel with
  | 0 => none
  | fuel + 1 => pBind (primaryF fuel σ) fun e σ₁ => callLoopF fuel e σ₁
termination_by structural fuel

/-- The chained-call iteration of `Parser::call`. -/
def callLoopF (fuel : Nat) (callee : Expression) (σ : PState) :
    Option (Except ParseError (Expression × PState)) :=
  match fuel with
  | 0 => none
  | fuel + 1 =>
    let m := matchP [.leftParen] σ
    if m.1 then
      pBind (finishCallF fuel callee m.2) fun e σ₂ => callLoopF fuel e σ₂
    else some (.ok (callee, σ))
termination_by structural fuel

/-- `Parser::finish_call`. -/
def finishCallF (fuel : Nat) (callee : Expression) (σ : PState) :
    Option (Except ParseError (Expression × PState)) :=
  match fuel with
  | 0 => none
  | fuel + 1 =>
    pBind (if checkP σ .rightParen then some (.ok ([], σ)) else argsLoopF fuel [] σ)
      fun args σ₁ =>
      pBind (some (consumeP .rightParen "Expect ')' after arguments." σ₁))
        fun parenthesis σ₂ => some (.ok (.call callee parenthesis args, σ₂))
termination_by structural fuel

/-- The argument loop of `Parser::finish_call` (at most 255 arguments). -/
def argsLoopF (fuel : Nat) (acc : List Expression) (σ : PState) :
    Option (Except ParseError (List Expression × PState)) :=
  match fuel with
  | 0 => none
  | fuel + 1 =>
    if 255 ≤ acc.length then
      some (.error (perror (peekT σ) "Can't have more than 255 arguments."))
    else
      pBind (expressionF fuel σ) fun a σ₁ =>
        let m := matchP [.comma] σ₁
        if m.1 then argsLoopF fuel (acc ++ [a]) m.2
        else some (.ok (acc ++ [a], m.2))
termination_by structural fuel

/-- `Parser::primary`. -/
def primaryF (fuel : Nat) (σ : PState) : Option (Except ParseError (Expression × PState)) :=
  match fuel with
  | 0 => none
  | fuel + 1 =>
    let mf := matchP [.false_] σ
    if mf.1 then some (.ok (.lit (.boolean false), mf.2))
    else
      let mt := matchP [.true_] σ
      if mt.1 then some (.ok (.lit (.boolean true), mt.2))
      else
        let mn := matchP [.nil_] σ
        if mn.1 then some (.ok (.lit .nil, mn.2))
        else
          let ml := matchP [.number, .string] σ
          if ml.1 then
            match (previousT ml.2).literal with
            | some l => some (.ok (.lit l, ml.2))
            | none => none
          else
            let mi := matchP [.identifier] σ
            if mi.1 then some (.ok (.var (previousT mi.2), mi.2))
            else
              let mp := matchP [.leftParen] σ
              if mp.1 then
                pBind (expressionF fuel mp.2) fun e σ₁ =>
                  pBind (some (consumeP .rightParen "Expect ')' after expression." σ₁))
                    fun _ σ₂ => some (.ok (.grouping e, σ₂))
              else some (.error (perror (peekT σ) "Expect expression."))
termination_by structural fuel

end

/-- The loop of `Parser::parse`: declarations until the Eof token. -/
def parseProgramLoop (fuel : Nat) : Nat → PState →
    Option (Except ParseError (List Statement × PState))
  | 0, _ => none
  | steps + 1, σ =>
    if !isAtEndP σ then
      pBind (declarationF fuel σ) fun s σ₁ =>
        pBind (parseProgramLoop fuel steps σ₁) fun rest σ₂ => some (.ok (s :: rest, σ₂))
    else some (.ok ([], σ))

/-- `Parser::new` followed by `Parser::parse`. -/
def parseProgram (fuel : Nat) (tokens : List Token) :
    Option (Except ParseError (List Statement × PState)) :=
  parseProgramLoop fuel (tokens.length + 1) ⟨tokens, 0⟩

/-- The spec's `for` desugaring (§4.2):
`Block(init?, While(cond, Block(body, ExprStmt(incr))?))`, omitting the
inner block when the increment is absent and the outer block when the
initializer is absent. -/
def desugarFor (ini : Option Statement) (cond : Expression) (incr : Option Expression)
    (body : Statement) : Statement :=
  let body1 :=
    match incr with
    | some e => Statement.block [body, .expr e]
    | none => body
  let body2 := Statement.whileS cond body1
  match ini with
  | some s => Statement.block [s, body2]
  | none => body2

theorem pBind_ok_inv {α β : Type} {x : Option (Except ParseError (α × PState))}
    {k : α → PState → Option (Except ParseError (β × PState))} {r : β × PState}
    (h : pBind x k = some (.ok r)) :
    ∃ a σ, x = some (.ok (a, σ)) ∧ k a σ = some (.ok r) := by
  match hx : x with
  | none => exact absurd h (by simp [pBind])
  | some (Except.error e) =>
    have h' : some (Except.error e : Except ParseError (β × PState)) = some (.ok r) := h
    simp at h'
  | some (Except.ok (a, σ)) => exact ⟨a, σ, rfl, h⟩

theorem forBodyF_shape : ∀ fuel ini cond incr σ stmt σ',
    forBodyF fuel ini cond incr σ = some (.ok (stmt, σ')) →
    ∃ body, stmt = desugarFor ini cond incr body := by
  intro fuel ini cond incr σ stmt σ' h
  match fuel with
  | 0 => exact absurd h (by simp [forBodyF])
  | fuel + 1 =>
    rw [forBodyF] at h
    obtain ⟨t, σ₁, hcons, h₁⟩ := pBind_ok_inv h
    obtain ⟨body, σ₂, hbody, h₂⟩ := pBind_ok_inv h₁
    have h₃ : some (Except.ok (desugarFor ini cond incr body, σ₂)) =
        some (Except.ok (stmt, σ')) := h₂
    cases h₃
    exact ⟨body, rfl⟩

theorem forIncrF_shape : ∀ fuel ini cond σ stmt σ',
    forIncrF fuel ini cond σ = some (.ok (stmt, σ')) →
    ∃ incr body, stmt = desugarFor ini cond incr body := by
  intro fuel ini cond σ stmt σ' h
  match fuel with
  | 0 => exact absurd h (by simp [forIncrF])
  | fuel + 1 =>
    rw [forIncrF] at h
    obtain ⟨t, σ₁, hcons, h₁⟩ := pBind_ok_inv h
    by_cases hr : checkP σ₁ .rightParen = true
    · rw [if_pos hr] at h₁
      obtain ⟨body, hb⟩ := forBodyF_shape fuel ini cond none σ₁ stmt σ' h₁
      exact ⟨none, body, hb⟩
    · rw [if_neg hr] at h₁
      obtain ⟨i, σ₂, hi, h₂⟩ := pBind_ok_inv h₁
      obtain ⟨body, hb⟩ := forBodyF_shape fuel ini cond (some i) σ₂ stmt σ' h₂
      exact ⟨some i, body, hb⟩

theorem forCondF_shape : ∀ fuel ini σ stmt σ',
    forCondF fuel ini σ = some (.ok (stmt, σ')) →
    ∃ cond incr body, stmt = desugarFor ini cond incr body ∧
      (checkP σ .semicolon = true → cond = .lit (.boolean true)) := by
  intro fuel ini σ stmt σ' h
  match fuel with
  | 0 => exact absurd h (by simp [forCondF])
  | fuel + 1 =>
    rw [forCondF] at h
    by_cases hc : checkP σ .semicolon = true
    · rw [if_pos hc] at h
      obtain ⟨incr, body, hb⟩ := forIncrF_shape fuel ini (.lit (.boolean true)) σ stmt σ' h
      exact ⟨.lit (.boolean true), incr, body, hb, fun _ => rfl⟩
    · rw [if_neg hc] at h
      obtain ⟨c, σ₁, hcnd, h₁⟩ := pBind_ok_inv h
      obtain ⟨incr, body, hb⟩ := forIncrF_shape fuel ini c σ₁ stmt σ' h₁
      exact ⟨c, incr, body, hb, fun hcon => absurd hcon hc⟩

/-- The token sequence of `for (var i = 0; i < 3; i = i + 1) print i;`. -/
def forDemoTokens : List Token :=
  [⟨.for_, "for", none, 1⟩,
    ⟨.leftParen, "(", none, 1⟩,
    ⟨.var_, "var", none, 1⟩,
    ⟨.identifier, "i", none, 1⟩,
    ⟨.equal, "=", none, 1⟩,
    ⟨.number, "0", some (.num (.fin 0)), 1⟩,
    ⟨.semicolon, ";", none, 1⟩,
    ⟨.identifier, "i", none, 1⟩,
    ⟨.less, "<", none, 1⟩,
    ⟨.number, "3", some (.num (.fin 3)), 1⟩,
    ⟨.semicolon, ";", none, 1⟩,
    ⟨.identifier, "i", none, 1⟩,
    ⟨.equal, "=", none, 1⟩,
    ⟨.identifier, "i", none, 1⟩,
    ⟨.plus, "+", none, 1⟩,
    ⟨.number, "1", some (.num (.fin 1)), 1⟩,
    ⟨.rightParen, ")", none, 1⟩,
    ⟨.print_, "print", none, 1⟩,
    ⟨.identifier, "i", none, 1⟩,
    ⟨.semicolon, ";", none, 1⟩,
    ⟨.eof, "", none, 1⟩]

/-- The token sequence of `for (;;) print 1;`. -/
def forEmptyTokens : List Token :=
  [⟨.for_, "for", none, 1⟩,
    ⟨.leftParen, "(", none, 1⟩,
    ⟨.semicolon, ";", none, 1⟩,
    ⟨.semicolon, ";", none, 1⟩,
    ⟨.rightParen, ")", none, 1⟩,
    ⟨.print_, "print", none, 1⟩,
    ⟨.number, "1", some (.num (.fin 1)), 1⟩,
    ⟨.semicolon, ";", none, 1⟩,
    ⟨.eof, "", none, 1⟩]

/-- The desugared AST of `for (var i = 0; i < 3; i = i + 1) print i;`. -/
def forDemoAST : Statement :=
  .block
    [.var ⟨.identifier, "i", none, 1⟩ (some (.lit (.num (.fin 0)))),
     .whileS
       (.binary (.var ⟨.identifier, "i", none, 1⟩) ⟨.less, "<", none, 1⟩
         (.lit (.num (.fin 3))))
       (.block
         [.print (.var ⟨.identifier, "i", none, 1⟩),
          .expr (.assign ⟨.identifier, "i", none, 1⟩
            (.binary (.var ⟨.identifier, "i", none, 1⟩) ⟨.plus, "+", none, 1⟩
              (.lit (.num (.fin 1)))))])]

/-- C6: every statement a successful `for` parse returns is in the image of
the spec's desugaring — `Block(init?, While(cond, Block(body,
ExprStmt(incr))?))` with the condition defaulting to the literal `true`
when the condition slot is empty — and two end-to-end parses: a full
`for (var i = 0; i < 3; i = i + 1) print i;` produces exactly the
double-block desugaring, and `for (;;) print 1;` produces exactly
`While(true, print 1)` with both blocks omitted. The `Statement` type has
no `for` constructor, so the evaluator only ever sees `While` and `Block`
nodes for the loop. -/
theorem for_desugaring :
    (∀ fuel σ stmt σ', forF fuel σ = some (.ok (stmt, σ')) →
      ∃ ini cond incr body, stmt = desugarFor ini cond incr body) ∧
    (∃ σend, parseProgram 30 forDemoTokens = some (.ok ([forDemoAST], σend))) ∧
    (∃ σend, parseProgram 30 forEmptyTokens =
      some (.ok ([.whileS (.lit (.boolean true)) (.print (.lit (.num (.fin 1))))], σend))) := by
  refine ⟨?_, ?_, ?_⟩
  · intro fuel σ stmt σ' h
    match fuel with
    | 0 => exact absurd h (by simp [forF])
    | fuel + 1 =>
      rw [forF] at h
      obtain ⟨t, σ₁, hcons, h₁⟩ := pBind_ok_inv h
      simp only [] at h₁
      by_cases hs : (matchP [.semicolon] σ₁).1 = true
      · rw [if_pos hs] at h₁
        obtain ⟨cond, incr, body, hb, _⟩ :=
          forCondF_shape fuel none (matchP [.semicolon] σ₁).2 stmt σ' h₁
        exact ⟨none, cond, incr, body, hb⟩
      · rw [if_neg hs] at h₁
        by_cases hv : (matchP [.var_] σ₁).1 = true
        · rw [if_pos hv] at h₁
          obtain ⟨s, σ₂, hsd, h₂⟩ := pBind_ok_inv h₁
          obtain ⟨cond, incr, body, hb, _⟩ := forCondF_shape fuel (some s) σ₂ stmt σ' h₂
          exact ⟨some s, cond, incr, body, hb⟩
        · rw [if_neg hv] at h₁
          obtain ⟨s, σ₂, hsd, h₂⟩ := pBind_ok_inv h₁
          obtain ⟨cond, incr, body, hb, _⟩ := forCondF_shape fuel (some s) σ₂ stmt σ' h₂
          exact ⟨some s, cond, incr, body, hb⟩
  · exact ⟨⟨forDemoTokens, 20⟩, rfl⟩
  · exact ⟨⟨forEmptyTokens, 8⟩, rfl⟩

/-- Witness for C6 at a concrete input: the parse of
`for (var i = 0; i < 3; i = i + 1) print i;` (entered after the `for`
keyword, as `Parser::statement` does) succeeds with the desugared AST,
which is in the image of the spec's desugaring. -/
theorem for_desugaring_witness :
    forF 30 ⟨forDemoTokens, 1⟩ = some (.ok (forDemoAST, ⟨forDemoTokens, 20⟩)) ∧
    (∃ ini cond incr body, forDemoAST = desugarFor ini cond incr body) := by
  constructor
  · rfl
  · exact for_desugaring.1 30 ⟨forDemoTokens, 1⟩ forDemoAST ⟨forDemoTokens, 20⟩ rfl

end Lox
